import Mathlib

/-!
# ReWear: swap-request ledger and image-verification gate

**Swap ledger.**  A shallow embedding of `server/routes/swaps.js` (the handlers `POST /`,
`PUT /:id/accept`, `PUT /:id/reject`).  The three MongoDB collections the
handlers touch (`User`, `Item`, `Swap`) are lists of documents; every handler
is a function from the store (plus the authenticated actor, the request input
and the values the environment supplies: a fresh document id, the clock) to
the HTTP response and the store it leaves behind.  Each `await` of a handler
is one step of the function, in the order of the source.

**Image verification.**  The two verifier services
(`server/services/geminiService.js`, `server/services/mockVerificationService.js`), the
route `POST /verify-item` of `server/routes/verification.js` and the listing form
`client/src/pages/AddItem.jsx` (`verifyImage`, `removeImage`, `handleSubmit`).
Numbers are exact rationals; the confidences the mock verifier, the route and the form
handle are integers.
-/

namespace ReWear

abbrev UserId := Nat
abbrev ItemId := Nat
abbrev SwapId := Nat

/-- A `User` document: only `_id` and `points` are read or written by the swap routes.
`points` is an integer because `$inc` applies no lower bound. -/
structure User where
  id : UserId
  points : Int
deriving DecidableEq, Repr

/-- An `Item` document: `_id`, the owner `userId`, `isAvailable` and the moderation `status`. -/
structure Item where
  id : ItemId
  userId : UserId
  isAvailable : Bool
  status : String
deriving DecidableEq, Repr

/-- The values `body('type').isIn(['swap', 'points'])` lets through. -/
inductive SwapType where
  | swap
  | points
deriving DecidableEq, Repr

/-- The values of `swap.status` the routes read and write. -/
inductive SwapStatus where
  | pending
  | accepted
  | rejected
deriving DecidableEq, Repr

/-- A `Swap` document. -/
structure Swap where
  id : SwapId
  requesterId : UserId
  itemId : ItemId
  type : SwapType
  pointsOffered : Int
  status : SwapStatus
  completedAt : Option Nat
deriving DecidableEq, Repr

/-- The three collections. -/
structure Store where
  users : List User
  items : List Item
  swaps : List Swap
deriving DecidableEq, Repr

/-- The responses of the three handlers, one constructor per `res.json` / `res.status(..).json`. -/
inductive Response where
  | swapCreated (id : SwapId)
  | swapAccepted
  | swapRejected
  | validationErrors
  | itemNotAvailable
  | ownItem
  | insufficientPoints
  | swapNotFound
  | notAuthorized
  | alreadyProcessed
  | serverError
deriving DecidableEq, Repr

/-- The HTTP status code of a response. -/
def Response.status : Response → Nat
  | .swapCreated _ => 200
  | .swapAccepted => 200
  | .swapRejected => 200
  | .validationErrors => 400
  | .itemNotAvailable => 404
  | .ownItem => 400
  | .insufficientPoints => 400
  | .swapNotFound => 404
  | .notAuthorized => 403
  | .alreadyProcessed => 400
  | .serverError => 500

/-- A response is a success when its status code is 200. -/
def Response.isSuccess (r : Response) : Bool := r.status == 200

/-- Apply `f` to the first element satisfying `p` (`findOneAndUpdate`, `updateOne`):
at most one document is touched. -/
def updateFirst {α : Type} (p : α → Bool) (f : α → α) : List α → List α
  | [] => []
  | x :: xs => if p x then f x :: xs else x :: updateFirst p f xs

/-- `User.findById(id)`. -/
def User.findById (us : List User) (id : UserId) : Option User :=
  us.find? (fun u => u.id == id)

/-- `User.findByIdAndUpdate(id, { $inc: { points: d } })`; no document, no effect. -/
def User.incPoints (us : List User) (id : UserId) (d : Int) : List User :=
  updateFirst (fun u => u.id == id) (fun u => { u with points := u.points + d }) us

/-- `Item.findById(id)`, which is what `.populate('itemId')` resolves the reference with. -/
def Item.findById (is : List Item) (id : ItemId) : Option Item :=
  is.find? (fun i => i.id == id)

/-- `Item.findOne({ _id: itemId, isAvailable: true, status: 'approved' })`. -/
def Item.findAvailable (is : List Item) (id : ItemId) : Option Item :=
  is.find? (fun i => i.id == id && i.isAvailable == true && i.status == "approved")

/-- `Item.findByIdAndUpdate(id, { isAvailable: false })`. -/
def Item.markUnavailable (is : List Item) (id : ItemId) : List Item :=
  updateFirst (fun i => i.id == id) (fun i => { i with isAvailable := false }) is

/-- `Swap.findById(id)`. -/
def Swap.findById (ss : List Swap) (id : SwapId) : Option Swap :=
  ss.find? (fun w => w.id == id)

/-- `swap.save()` on a document that was loaded from the collection: the stored
document with that `_id` is replaced. -/
def Swap.save (ss : List Swap) (w : Swap) : List Swap :=
  updateFirst (fun x => x.id == w.id) (fun _ => w) ss

/-- The body of `POST /`.  `itemId = none` is a missing or empty field, `type = none`
a value outside `['swap', 'points']`, `pointsOffered = none` an absent field
(`undefined`); a present `pointsOffered` is an integer. -/
structure CreateBody where
  itemId : Option ItemId
  type : Option SwapType
  pointsOffered : Option Int
deriving DecidableEq, Repr

/-- The validator chain of `POST /`: `itemId` not empty, `type` in the enumeration,
`pointsOffered` optional and otherwise an integer at least 0. -/
def CreateBody.valid (b : CreateBody) : Bool :=
  b.itemId.isSome && b.type.isSome &&
    (match b.pointsOffered with
     | none => true
     | some p => decide (0 ≤ p))

/-- `user.points < pointsOffered`; with `pointsOffered` undefined the comparison is false. -/
def pointsBelow (points : Int) (pointsOffered : Option Int) : Bool :=
  match pointsOffered with
  | none => false
  | some p => decide (points < p)

/-- Modelled from the spec: the `Swap` schema (`models/Swap.js`) supplies the fields the
constructor call leaves out; a request is created Pending and `completedAt` is set only
on Accepted/Rejected. -/
def Swap.new (id : SwapId) (requesterId : UserId) (itemId : ItemId) (type : SwapType)
    (pointsOffered : Int) : Swap :=
  { id := id, requesterId := requesterId, itemId := itemId, type := type,
    pointsOffered := pointsOffered, status := .pending, completedAt := none }

/-- `swap.save()` on a new document: an insert; a duplicate `_id` is rejected by the
collection and the insert throws. -/
def Swap.insert (ss : List Swap) (w : Swap) : Option (List Swap) :=
  if ss.any (fun x => x.id == w.id) then none else some (ss ++ [w])

/-- The tail of `POST /`: `new Swap({...})`, `await swap.save()`, and the 200 response;
a failed insert is caught and answered with 500. -/
def persistSwap (s : Store) (w : Swap) : Response × Store :=
  match Swap.insert s.swaps w with
  | none => (.serverError, s)
  | some swaps => (.swapCreated w.id, { s with swaps := swaps })

/-- `router.post('/')`: create a swap request.  `requesterId` is `req.user.user.id`,
`newId` the `_id` generated for the new document.  For `type === 'points'` the requester
is loaded; when there is no such user, `user.points` throws and the handler answers 500. -/
def createSwap (s : Store) (requesterId : UserId) (b : CreateBody) (newId : SwapId) :
    Response × Store :=
  if !b.valid then (.validationErrors, s) else
  match b.itemId, b.type with
  | some itemId, some type =>
    match Item.findAvailable s.items itemId with
    | none => (.itemNotAvailable, s)
    | some item =>
      if item.userId == requesterId then (.ownItem, s)
      else
        let swap := Swap.new newId requesterId itemId type (b.pointsOffered.getD 0)
        if type = .points then
          match User.findById s.users requesterId with
          | none => (.serverError, s)
          | some user =>
            if pointsBelow user.points b.pointsOffered then (.insufficientPoints, s)
            else persistSwap s swap
        else persistSwap s swap
  | _, _ => (.validationErrors, s)

/-- `router.put('/:id/accept')`.  `actor` is `req.user.user.id`, `now` is `new Date()`.
A swap whose item reference does not resolve makes `swap.itemId.userId` throw, which
the handler answers with 500. -/
def acceptSwap (s : Store) (actor : UserId) (swapId : SwapId) (now : Nat) :
    Response × Store :=
  match Swap.findById s.swaps swapId with
  | none => (.swapNotFound, s)
  | some swap =>
    match Item.findById s.items swap.itemId with
    | none => (.serverError, s)
    | some item =>
      if item.userId != actor then (.notAuthorized, s)
      else if swap.status != .pending then (.alreadyProcessed, s)
      else
        let swaps := Swap.save s.swaps { swap with status := .accepted, completedAt := some now }
        let items := Item.markUnavailable s.items item.id
        let users :=
          if swap.type = .points then
            User.incPoints (User.incPoints s.users swap.requesterId (-swap.pointsOffered))
              actor swap.pointsOffered
          else s.users
        (.swapAccepted, { users := users, items := items, swaps := swaps })

/-- `router.put('/:id/reject')`. -/
def rejectSwap (s : Store) (actor : UserId) (swapId : SwapId) (now : Nat) :
    Response × Store :=
  match Swap.findById s.swaps swapId with
  | none => (.swapNotFound, s)
  | some swap =>
    match Item.findById s.items swap.itemId with
    | none => (.serverError, s)
    | some item =>
      if item.userId != actor then (.notAuthorized, s)
      else if swap.status != .pending then (.alreadyProcessed, s)
      else
        let swaps := Swap.save s.swaps { swap with status := .rejected, completedAt := some now }
        (.swapRejected, { s with swaps := swaps })

/-- One request to the swap routes. -/
inductive Op where
  | create (requesterId : UserId) (body : CreateBody) (newId : SwapId)
  | accept (actor : UserId) (swapId : SwapId) (now : Nat)
  | reject (actor : UserId) (swapId : SwapId) (now : Nat)
deriving DecidableEq, Repr

/-- Serve one request. -/
def step (s : Store) : Op → Response × Store
  | .create r b n => createSwap s r b n
  | .accept a w t => acceptSwap s a w t
  | .reject a w t => rejectSwap s a w t

/-- Serve a sequence of requests one after the other; the responses are returned in order. -/
def run (s : Store) : List Op → List Response × Store
  | [] => ([], s)
  | op :: ops =>
    let r := step s op
    let rest := run r.2 ops
    (r.1 :: rest.1, rest.2)

/-- The sum of `points` over all user accounts. -/
def totalPoints (us : List User) : Int := (us.map (fun u => u.points)).sum

/-- The balance of an account, if the account exists. -/
def pointsOf (us : List User) (id : UserId) : Option Int :=
  (User.findById us id).map (fun u => u.points)

/-! ## Concrete stores and request sequences -/

/-- A small store: the owner (user 1), two requesters (users 2 and 3), three approved
items of user 1 (item 12 has already been given away) and three requests. -/
def demoStore : Store :=
  { users := [⟨1, 5⟩, ⟨2, 30⟩, ⟨3, 30⟩],
    items := [⟨10, 1, true, "approved"⟩, ⟨11, 1, true, "approved"⟩,
      ⟨12, 1, false, "approved"⟩],
    swaps := [⟨100, 2, 10, .points, 20, .pending, none⟩,
      ⟨101, 3, 10, .swap, 0, .pending, none⟩,
      ⟨102, 2, 11, .swap, 0, .rejected, some 3⟩] }

/-- The owner (user 1) lists two items; user 2 holds 30 points; no request yet. -/
def overdraftStart : Store :=
  { users := [⟨1, 0⟩, ⟨2, 30⟩],
    items := [⟨10, 1, true, "approved"⟩, ⟨11, 1, true, "approved"⟩],
    swaps := [] }

/-- User 2 offers 20 points for item 10 and 20 points for item 11; the owner accepts the
first offer. -/
def overdraftPrefix : List Op :=
  [.create 2 ⟨some 10, some .points, some 20⟩ 100,
   .create 2 ⟨some 11, some .points, some 20⟩ 101,
   .accept 1 100 5]

/-- The same requests, followed by the owner accepting the second offer too. -/
def overdraftOps : List Op := overdraftPrefix ++ [.accept 1 101 6]

/-- The store after `overdraftPrefix`: user 2 is left with 10 points and still has a
pending offer of 20. -/
def overdraftMid : Store := (run overdraftStart overdraftPrefix).2

/-- One item of user 1; users 2 and 3 hold 30 points each. -/
def raceStart : Store :=
  { users := [⟨1, 0⟩, ⟨2, 30⟩, ⟨3, 30⟩],
    items := [⟨10, 1, true, "approved"⟩],
    swaps := [] }

/-- Users 2 and 3 both make a points offer for item 10; the owner accepts one offer and
then the other. -/
def raceOps : List Op :=
  [.create 2 ⟨some 10, some .points, some 20⟩ 100,
   .create 3 ⟨some 10, some .points, some 25⟩ 101,
   .accept 1 100 5,
   .accept 1 101 6]

/-- The invariant of the request collection: `completedAt` is set exactly on the requests
that are no longer pending. -/
def completedIffProcessed (s : Store) : Prop :=
  ∀ w ∈ s.swaps, (w.completedAt.isSome = true ↔ w.status ≠ .pending)

/-- A store in which the pending 20-point offer 100 on item 10 of user 1 comes from user 7,
who has no account any more. -/
def ghostStore : Store :=
  { users := [⟨1, 5⟩, ⟨2, 30⟩],
    items := [⟨10, 1, true, "approved"⟩],
    swaps := [⟨100, 7, 10, .points, 20, .pending, none⟩] }

/-- A store in which request 100 refers to item 10, which has been deleted. -/
def danglingStore : Store :=
  { users := [⟨1, 5⟩, ⟨2, 30⟩],
    items := [],
    swaps := [⟨100, 2, 10, .swap, 0, .pending, none⟩] }

/-! ## Image verification: the verifier services

`server/services/geminiService.js` and `server/services/mockVerificationService.js` both
export `verifyClothingImage`.  What the outside world does during one call (the
environment variable, the file system, the model, `Math.random`) and the library
functions `JSON.parse` and `String.prototype.toLowerCase` are arguments of the embedding.
A string is a sequence of Unicode characters. -/

/-- The result object of `verifyClothingImage`, as the routes and the client read it.
`isMatch` is the field `matches` (a reserved word here); `confidence = none` is a result
object without a numeric `confidence`.  The free-text
fields `reasoning` and `error` and the flag `isMock` are read nowhere and are left out. -/
structure VerificationResult where
  success : Bool
  isMatch : Bool
  detectedItem : String
  confidence : Option Int
  categoryMatch : Bool
deriving DecidableEq, Repr

/-- `haystack.includes(needle)` on the characters of the two strings. -/
def includesChars : List Char → List Char → Bool
  | [], sub => sub.isEmpty
  | c :: cs, sub => sub.isPrefixOf (c :: cs) || includesChars cs sub

/-- `s.includes(sub)`. -/
def jsIncludes (s sub : String) : Bool := includesChars s.data sub.data

/-- The lower-casing of the letters `A`-`Z`.  `String.prototype.toLowerCase` itself, which
follows the Unicode case mapping, is an argument of the services below (`toLowerCase`);
this function is its value on strings of ASCII characters and is used only to evaluate the
services on such strings. -/
def asciiToLowerCase (s : String) : String := ⟨s.data.map Char.toLower⟩

/-- `Math.round(x)`: the nearest integer, a half going up. -/
def mathRound (x : ℚ) : Int := ⌊x + 1 / 2⌋

/-- `Math.floor(x)`. -/
def mathFloor (x : ℚ) : Int := ⌊x⌋

namespace geminiService

/-- A value stored under a key of the object `JSON.parse` returned.  A JSON number is a
rational; arrays and nested objects, which the service never looks into, are kept as their
source text. -/
inductive JsonValue where
  | null
  | bool (b : Bool)
  | number (q : ℚ)
  | string (s : String)
  | composite (source : String)
deriving DecidableEq, Repr

/-- `parsedResponse[key]`; `none` is `undefined`. -/
def getKey (parsedResponse : List (String × JsonValue)) (key : String) : Option JsonValue :=
  (parsedResponse.find? (fun e => e.1 == key)).map (fun e => e.2)

/-- `{ success: true, ...parsedResponse }`: every key of the parsed object, with
`success: true` in front unless the object has a `success` of its own, which then takes
that place. -/
def spreadOverSuccess (parsedResponse : List (String × JsonValue)) :
    List (String × JsonValue) :=
  match getKey parsedResponse "success" with
  | some value => ("success", value) :: parsedResponse.filter (fun e => e.1 != "success")
  | none => ("success", .bool true) :: parsedResponse

/-- The outside world during one call.  `apiKey`: `process.env.GEMINI_API_KEY` is set.
`readFileSync = none`: reading the image throws.  `imageAnswer` is the text the model
returns for the image prompt and `textAnswer` the text it returns for the text-only retry,
`none` when the call throws.  `jsonParse text` is the object `JSON.parse(text)` returns,
as its entries; `none` when it throws or returns `null`, a primitive or an array (the
tests on `.matches` and `.confidence` then throw).  `toLowerCase` is
`String.prototype.toLowerCase`. -/
structure Env where
  apiKey : Bool
  readFileSync : Option String
  imageAnswer : Option String
  textAnswer : Option String
  jsonParse : String → Option (List (String × JsonValue))
  toLowerCase : String → String

/-- What the service returns: an object it builds field by field, or the parsed answer of
the model under `success: true`. -/
inductive Answer where
  | built (result : VerificationResult)
  | parsed (fields : List (String × JsonValue))
deriving DecidableEq, Repr

/-- The object returned when the API key is missing. -/
def noApiKeyResult : VerificationResult :=
  { success := false, isMatch := false, detectedItem := "API key not configured",
    confidence := some 0, categoryMatch := false }

/-- The object returned by the outer `catch`. -/
def errorResult : VerificationResult :=
  { success := false, isMatch := false, detectedItem := "Error processing image",
    confidence := some 0, categoryMatch := false }

/-- The object returned by the inner `catch (parseError)`: the raw text is searched for
keywords. -/
def parseErrorResult (toLowerCase : String → String) (text : String) : VerificationResult :=
  let lowerText := toLowerCase text
  { success := true,
    isMatch := jsIncludes lowerText "match" || jsIncludes lowerText "correct" ||
      jsIncludes lowerText "yes",
    detectedItem := "Response parsing failed - see reasoning",
    confidence := some (if jsIncludes lowerText "high" then 80
      else if jsIncludes lowerText "low" then 30 else 50),
    categoryMatch := jsIncludes lowerText "category" && jsIncludes lowerText "match" }

/-- The text of the model: the answer to the image prompt, or, when that call throws, the
answer to the text-only prompt; `none` when the retry throws as well. -/
def modelText (env : Env) : Option String :=
  match env.imageAnswer with
  | some text => some text
  | none => env.textAnswer

/-- `verifyClothingImage` of `geminiService.js`. -/
def verifyClothingImage (env : Env) : Answer :=
  if !env.apiKey then .built noApiKeyResult
  else
    match env.readFileSync with
    | none => .built errorResult
    | some _ =>
      match modelText env with
      | none => .built errorResult
      | some text =>
        match env.jsonParse text with
        | none => .built (parseErrorResult env.toLowerCase text)
        | some parsedResponse =>
          match getKey parsedResponse "matches", getKey parsedResponse "confidence" with
          | some (.bool _), some (.number _) => .parsed (spreadOverSuccess parsedResponse)
          | _, _ => .built (parseErrorResult env.toLowerCase text)

end geminiService

namespace mockVerificationService

/-- The table `categoryKeywords`. -/
def categoryKeywords : List (String × List String) :=
  [("tops", ["shirt", "t-shirt", "blouse", "sweater", "top", "tank", "polo", "sweatshirt"]),
   ("bottoms", ["pants", "jeans", "trousers", "shorts", "skirt", "leggings", "bottom"]),
   ("dresses", ["dress", "gown", "frock"]),
   ("outerwear", ["coat", "jacket", "blazer", "hoodie", "cardigan", "sweater"]),
   ("shoes", ["shoes", "boots", "sneakers", "sandals", "heels", "flats"]),
   ("accessories", ["hat", "scarf", "belt", "bag", "jewelry", "watch", "sunglasses"])]

/-- The property names an object literal inherits from `Object.prototype`. -/
def inheritedNames : List String :=
  ["constructor", "__proto__", "toString", "toLocaleString", "valueOf", "hasOwnProperty",
   "isPrototypeOf", "propertyIsEnumerable", "__defineGetter__", "__defineSetter__",
   "__lookupGetter__", "__lookupSetter__"]

/-- `categoryKeywords[categoryLower] || []`.  The table is an object literal, so a name
it inherits (of which `constructor` and `__proto__` have no capital letter) yields a value
that is no array: `none`, and the `.some(...)` that follows throws. -/
def keywordsFor (categoryLower : String) : Option (List String) :=
  if inheritedNames.contains categoryLower then none
  else
    match categoryKeywords.find? (fun e => e.1 == categoryLower) with
    | some e => some e.2
    | none => some []

/-- The object returned by the `catch`. -/
def errorResult : VerificationResult :=
  { success := false, isMatch := false, detectedItem := "Error in mock verification",
    confidence := some 0, categoryMatch := false }

/-- `verifyClothingImage` of `mockVerificationService.js`.  `toLowerCase` is
`String.prototype.toLowerCase`.  A description or category that is `undefined` is `none`
(its `.toLowerCase()` throws); `random` is the value of `Math.random()`. -/
def verifyClothingImage (toLowerCase : String → String)
    (userDescription category : Option String) (random : ℚ) : VerificationResult :=
  match userDescription, category with
  | some userDescription, some category =>
    let description := toLowerCase userDescription
    let categoryLower := toLowerCase category
    match keywordsFor categoryLower with
    | none => errorResult
    | some keywords =>
      let hasMatchingKeywords := keywords.any (fun keyword => jsIncludes description keyword)
      let confidence : Int :=
        if hasMatchingKeywords then mathFloor (random * 30) + 70
        else mathFloor (random * 40) + 20
      let isMatch := hasMatchingKeywords && decide (confidence > 50)
      let detectedItem :=
        if hasMatchingKeywords then
          "Detected " ++ categoryLower ++ " item matching your description"
        else "Detected item that may not match your " ++ categoryLower ++ " description"
      { success := true, isMatch := isMatch, detectedItem := detectedItem,
        confidence := some confidence, categoryMatch := hasMatchingKeywords }
  | _, _ => errorResult

end mockVerificationService

/-! ## Image verification: `POST /verify-item`  (`server/routes/verification.js`) -/

/-- A file as `multer` hands it to the route. -/
structure UploadedFile where
  filename : String
  path : String
deriving DecidableEq, Repr

/-- The 200 body of `POST /verify-item` (without the constant `success: true`). -/
structure ItemVerification where
  allImagesMatch : Bool
  averageConfidence : Int
  verificationResults : List (String × VerificationResult)
  recommendation : String
deriving DecidableEq, Repr

/-- The responses of `POST /verify-item`. -/
inductive VerifyItemResponse where
  | noImagesUploaded
  | fieldsRequired
  | verified (body : ItemVerification)
deriving DecidableEq, Repr

/-- The variables the `for` loop of `verify-item` updates. -/
structure VerifyItemVars where
  verificationResults : List (String × VerificationResult)
  allImagesMatch : Bool
  averageConfidence : Int
deriving DecidableEq, Repr

/-- The `for (const file of req.files)` loop: one verifier call per file, the result is
pushed, `allImagesMatch` is cleared on a miss, `result.confidence || 0` is added up. -/
def verifyItemLoop (verify : String → VerificationResult) :
    List UploadedFile → VerifyItemVars → VerifyItemVars
  | [], vars => vars
  | file :: files, vars =>
    let result := verify file.path
    verifyItemLoop verify files
      { verificationResults := vars.verificationResults ++ [(file.filename, result)],
        allImagesMatch := if !result.isMatch then false else vars.allImagesMatch,
        averageConfidence := vars.averageConfidence + result.confidence.getD 0 }

/-- `router.post('/verify-item')`.  `verify path` is
`await verifyClothingImage(path, description, category)`; a missing body field is the
empty string. -/
def verifyItem (verify : String → VerificationResult) (files : List UploadedFile)
    (title description category : String) : VerifyItemResponse :=
  if files.length == 0 then .noImagesUploaded
  else if title == "" || description == "" || category == "" then .fieldsRequired
  else
    let vars := verifyItemLoop verify files
      { verificationResults := [], allImagesMatch := true, averageConfidence := 0 }
    let averageConfidence : ℚ := (vars.averageConfidence : ℚ) / vars.verificationResults.length
    .verified
      { allImagesMatch := vars.allImagesMatch,
        averageConfidence := mathRound averageConfidence,
        verificationResults := vars.verificationResults,
        recommendation :=
          if vars.allImagesMatch then "All images match the description"
          else "Some images do not match the description" }

/-! ## Image verification: the listing form  (`client/src/pages/AddItem.jsx`) -/

/-- The fields of `formData` that `handleSubmit` and `verifyImage` test. -/
structure FormData where
  title : String
  description : String
  category : String
  type : String
  condition : String
deriving DecidableEq, Repr

/-- The state of the component: the form, the chosen images and `verificationResults`,
an object keyed by image index, kept as its list of entries in key order. -/
structure AddItemState where
  formData : FormData
  images : List String
  verificationResults : List (Nat × VerificationResult)
deriving DecidableEq, Repr

/-- The object `{ ...prev, [index]: value }`, as entries in key order. -/
def setEntry (index : Nat) (value : VerificationResult) :
    List (Nat × VerificationResult) → List (Nat × VerificationResult)
  | [] => [(index, value)]
  | e :: es =>
    if index < e.1 then (index, value) :: e :: es
    else if index = e.1 then (index, value) :: es
    else e :: setEntry index value es

/-- `verifyImage(image, index)`.  `response` is `response.data.verification` of the
`verify-image` request, `none` when the request fails; then only the error message is
set. -/
def verifyImage (st : AddItemState) (index : Nat) (response : Option VerificationResult) :
    AddItemState :=
  if st.formData.description == "" || st.formData.category == "" then st
  else
    match response with
    | some verification =>
      { st with verificationResults := setEntry index verification st.verificationResults }
    | none => st

/-- `images.filter((_, i) => i !== index)`. -/
def filterOutIndex {α : Type} (xs : List α) (index : Nat) : List α :=
  (xs.enum.filter (fun p => p.1 != index)).map (fun p => p.2)

/-- `removeImage(index)`: the image at `index` is dropped from `images`, and the key
`index` is deleted from a copy of `verificationResults`; the other keys stay as they are. -/
def removeImage (st : AddItemState) (index : Nat) : AddItemState :=
  { st with
    images := filterOutIndex st.images index,
    verificationResults := st.verificationResults.filter (fun e => e.1 != index) }

/-- `verificationResults[index]`. -/
def resultAt (st : AddItemState) (index : Nat) : Option VerificationResult :=
  (st.verificationResults.find? (fun e => e.1 == index)).map (fun e => e.2)

/-- `result.confidence < 50`; an `undefined` confidence compares false. -/
def confidenceBelow (result : VerificationResult) (bound : Int) : Bool :=
  match result.confidence with
  | none => false
  | some c => decide (c < bound)

/-- How the check of the verification results in `handleSubmit` ends. -/
inductive GateOutcome where
  | lowConfidence (images : Nat)
  | declined (failed : Nat)
  | passed (confirmedFailed : Option Nat)
deriving DecidableEq, Repr

/-- The block `// Check verification results and confidence scores` of `handleSubmit`.
`confirm n` is what `window.confirm` returns when it is shown for `n` failed images. -/
def verificationGate (verificationResults : List (Nat × VerificationResult))
    (confirm : Nat → Bool) : GateOutcome :=
  let verificationEntries := verificationResults
  if verificationEntries.length > 0 then
    let lowConfidenceImages := verificationEntries.filter (fun e => confidenceBelow e.2 50)
    if lowConfidenceImages.length > 0 then .lowConfidence lowConfidenceImages.length
    else
      let failedVerifications := verificationEntries.filter (fun e => !e.2.isMatch)
      if failedVerifications.length > 0 then
        if confirm failedVerifications.length then .passed (some failedVerifications.length)
        else .declined failedVerifications.length
      else .passed none
  else .passed none

/-- How `handleSubmit` ends: with the required-fields message, stopped by the gate, or
with the `POST /api/items` request for the images of the form. -/
inductive SubmitOutcome where
  | requiredFieldsMissing
  | stopped (gate : GateOutcome)
  | posted (images : List String) (confirmedFailed : Option Nat)
deriving DecidableEq, Repr

/-- The test `!formData.title || !formData.description || !formData.category ||
!formData.type || !formData.condition` of `handleSubmit`. -/
def FormData.requiredMissing (formData : FormData) : Bool :=
  formData.title == "" || formData.description == "" || formData.category == "" ||
    formData.type == "" || formData.condition == ""

/-- `handleSubmit`, up to the request that creates the listing. -/
def handleSubmit (st : AddItemState) (confirm : Nat → Bool) : SubmitOutcome :=
  if st.formData.requiredMissing then .requiredFieldsMissing
  else
    match verificationGate st.verificationResults confirm with
    | .passed confirmedFailed => .posted st.images confirmedFailed
    | gate => .stopped gate

/-- The listing is not created. -/
def SubmitOutcome.blocked : SubmitOutcome → Bool
  | .posted _ _ => false
  | _ => true

/-- The outcome of the gate blocks the listing. -/
def GateOutcome.blocked : GateOutcome → Bool
  | .passed _ => false
  | _ => true

/-- The confirmation dialog was shown. -/
def GateOutcome.requiresOverride : GateOutcome → Bool
  | .lowConfidence _ => false
  | .declined _ => true
  | .passed confirmedFailed => confirmedFailed.isSome

/-- A verification result with the given flag and confidence. -/
def resultOf (isMatch : Bool) (confidence : Int) : VerificationResult :=
  { success := true, isMatch := isMatch, detectedItem := "item",
    confidence := some confidence, categoryMatch := isMatch }

/-- A filled-in form. -/
def demoForm : FormData :=
  { title := "Jacket", description := "blue denim jacket", category := "outerwear",
    type := "unisex", condition := "good" }

/-- The arithmetic mean of the confidences of a list of results, a missing confidence
counting as 0. -/
def meanConfidence (results : List VerificationResult) : ℚ :=
  ((results.map (fun r => r.confidence.getD 0)).sum : ℚ) / results.length

/-- A verifier that answers 75 for the first upload and 90 for any other. -/
def demoVerify (path : String) : VerificationResult :=
  if path == "uploads/temp/a" then resultOf true 75 else resultOf true 90

/-- Two uploaded files. -/
def demoFiles : List UploadedFile :=
  [⟨"verify-a.png", "uploads/temp/a"⟩, ⟨"verify-b.png", "uploads/temp/b"⟩]

/-- Three images, each verified: the front view matches with 90, the back view has the
low confidence 40, the label matches with 95. -/
def threeVerified : AddItemState :=
  { formData := demoForm,
    images := ["front.png", "back.png", "label.png"],
    verificationResults := [(0, resultOf true 90), (1, resultOf false 40), (2, resultOf true 95)] }

/-! ## Lemmas about the collections and the handlers -/

theorem find?_updateFirst {α : Type} (key : α → Nat) (f : α → α) (hf : ∀ x, key (f x) = key x)
    (k k' : Nat) (l : List α) :
    (updateFirst (fun x => key x == k) f l).find? (fun x => key x == k') =
      if k' = k then (l.find? (fun x => key x == k)).map f
      else l.find? (fun x => key x == k') := by
  induction l with
  | nil => simp [updateFirst]
  | cons x xs ih =>
    by_cases hx : key x = k
    · by_cases hk : k' = k
      · simp [updateFirst, hx, hk, List.find?_cons, hf]
      · have hk2 : ¬ k = k' := fun h => hk h.symm
        simp [updateFirst, hx, hk, hk2, List.find?_cons, hf]
    · by_cases hk : k' = k
      · subst hk
        simp [updateFirst, hx, List.find?_cons] at ih ⊢
        exact ih
      · by_cases hx2 : key x = k'
        · simp [updateFirst, hx, hk, hx2, List.find?_cons]
        · simp [updateFirst, hx, hk, hx2, List.find?_cons] at ih ⊢
          exact ih

theorem map_key_updateFirst {α : Type} (key : α → Nat) (p : α → Bool) (f : α → α)
    (hf : ∀ x, key (f x) = key x) (l : List α) :
    (updateFirst p f l).map key = l.map key := by
  induction l with
  | nil => simp [updateFirst]
  | cons x xs ih =>
    by_cases hx : p x <;> simp [updateFirst, hx, hf, ih]

theorem totalPoints_incPoints (us : List User) (id : UserId) (d : Int)
    (h : (User.findById us id).isSome) :
    totalPoints (User.incPoints us id d) = totalPoints us + d := by
  induction us with
  | nil => simp [User.findById] at h
  | cons u us ih =>
    by_cases hu : u.id = id
    · simp [User.incPoints, updateFirst, hu, totalPoints]; ring
    · have h2 : (User.findById us id).isSome := by
        simpa [User.findById, List.find?_cons, hu] using h
      have := ih h2
      simp [User.incPoints, updateFirst, hu, totalPoints] at this ⊢
      rw [this]; ring

theorem user_findById_incPoints (us : List User) (id id' : UserId) (d : Int) :
    User.findById (User.incPoints us id d) id' =
      if id' = id then (User.findById us id).map (fun u => { u with points := u.points + d })
      else User.findById us id' :=
  find?_updateFirst (fun u : User => u.id) (fun u => { u with points := u.points + d })
    (fun _ => rfl) id id' us

theorem user_map_id_incPoints (us : List User) (id : UserId) (d : Int) :
    (User.incPoints us id d).map (fun u => u.id) = us.map (fun u => u.id) :=
  map_key_updateFirst (fun u : User => u.id) _ (fun u => { u with points := u.points + d })
    (fun _ => rfl) us

theorem pointsOf_incPoints (us : List User) (id id' : UserId) (d : Int) :
    pointsOf (User.incPoints us id d) id' =
      if id' = id then (pointsOf us id).map (fun p => p + d) else pointsOf us id' := by
  unfold pointsOf
  rw [user_findById_incPoints]
  split <;> simp [Option.map_map, Function.comp_def]


theorem swap_findById_id {ss : List Swap} {id : SwapId} {w : Swap}
    (h : Swap.findById ss id = some w) : w.id = id := by
  have := List.find?_some h
  simpa using this

theorem item_findById_id {is : List Item} {id : ItemId} {i : Item}
    (h : Item.findById is id = some i) : i.id = id := by
  have := List.find?_some h
  simpa using this

theorem swap_findById_save (ss : List Swap) (w : Swap) (id : SwapId) :
    Swap.findById (Swap.save ss w) id =
      if id = w.id then (Swap.findById ss w.id).map (fun _ => w) else Swap.findById ss id := by
  induction ss with
  | nil => simp [Swap.findById, Swap.save, updateFirst]
  | cons x xs ih =>
    simp only [Swap.findById, Swap.save] at ih ⊢
    by_cases hx : x.id = w.id
    · by_cases hk : id = w.id
      · simp [updateFirst, hx, hk, List.find?_cons]
      · have hk2 : ¬ w.id = id := fun h => hk h.symm
        simp [updateFirst, hx, hk, hk2, List.find?_cons]
    · by_cases hk : id = w.id
      · subst hk
        simp [updateFirst, hx, List.find?_cons] at ih ⊢
        exact ih
      · by_cases hx2 : x.id = id
        · simp [updateFirst, hx, hk, hx2, List.find?_cons]
        · simp [updateFirst, hx, hk, hx2, List.find?_cons] at ih ⊢
          exact ih

/-- The effect of an accept that passes the three guards. -/
theorem acceptSwap_of_guards (s : Store) (actor : UserId) (swapId : SwapId) (now : Nat)
    (swap : Swap) (item : Item)
    (hswap : Swap.findById s.swaps swapId = some swap)
    (hitem : Item.findById s.items swap.itemId = some item)
    (hown : item.userId = actor) (hpend : swap.status = .pending) :
    acceptSwap s actor swapId now =
      (.swapAccepted,
        { users :=
            if swap.type = .points then
              User.incPoints (User.incPoints s.users swap.requesterId (-swap.pointsOffered))
                actor swap.pointsOffered
            else s.users,
          items := Item.markUnavailable s.items item.id,
          swaps := Swap.save s.swaps { swap with status := .accepted, completedAt := some now } }) := by
  simp [acceptSwap, hswap, hitem, hown, hpend]

/-- An accept answers 200 only when the request is there, its item resolves, the actor owns
the item and the request is pending. -/
theorem acceptSwap_success_inv (s : Store) (actor : UserId) (swapId : SwapId) (now : Nat)
    (h : (acceptSwap s actor swapId now).1 = .swapAccepted) :
    ∃ swap item, Swap.findById s.swaps swapId = some swap ∧
      Item.findById s.items swap.itemId = some item ∧
      item.userId = actor ∧ swap.status = .pending := by
  unfold acceptSwap at h
  cases hswap : Swap.findById s.swaps swapId with
  | none => simp [hswap] at h
  | some swap =>
    cases hitem : Item.findById s.items swap.itemId with
    | none => simp [hswap, hitem] at h
    | some item =>
      by_cases hown : item.userId = actor
      · by_cases hpend : swap.status = .pending
        · exact ⟨swap, item, rfl, hitem, hown, hpend⟩
        · simp [hswap, hitem, hown, hpend] at h
      · simp [hswap, hitem, hown] at h

theorem item_findAvailable_spec {is : List Item} {id : ItemId} {i : Item}
    (h : Item.findAvailable is id = some i) :
    i ∈ is ∧ i.id = id ∧ i.isAvailable = true ∧ i.status = "approved" := by
  have h1 := List.find?_some h
  have h2 := List.mem_of_find?_eq_some h
  simp at h1
  exact ⟨h2, h1.1.1, h1.1.2, h1.2⟩

theorem persistSwap_state (s : Store) (w : Swap) :
    (persistSwap s w).1.isSuccess = false → (persistSwap s w).2 = s := by
  unfold persistSwap
  cases Swap.insert s.swaps w <;> simp [Response.isSuccess, Response.status]

/-- A create that does not answer 200 leaves the store as it was. -/
theorem createSwap_failure_state (s : Store) (r : UserId) (b : CreateBody) (newId : SwapId)
    (h : (createSwap s r b newId).1.isSuccess = false) : (createSwap s r b newId).2 = s := by
  obtain ⟨bi, bt, bp⟩ := b
  unfold createSwap at h ⊢
  by_cases hv : (CreateBody.mk bi bt bp).valid = true
  · cases bi with
    | none => simp [hv]
    | some itemId =>
      cases bt with
      | none => simp [hv]
      | some type =>
        cases hfind : Item.findAvailable s.items itemId with
        | none => simp [hv, hfind]
        | some item =>
          by_cases hown : item.userId = r
          · simp [hv, hfind, hown]
          · cases type with
            | swap =>
              simp [hv, hfind, hown] at h ⊢
              exact persistSwap_state _ _ h
            | points =>
              cases huser : User.findById s.users r with
              | none => simp [hv, hfind, hown, huser]
              | some user =>
                by_cases hlow : pointsBelow user.points bp = true
                · simp [hv, hfind, hown, huser, hlow]
                · simp [hv, hfind, hown, huser, hlow] at h ⊢
                  exact persistSwap_state _ _ h
  · simp [hv]


theorem persistSwap_success (s : Store) (w : Swap)
    (h : (persistSwap s w).1.isSuccess = true) :
    persistSwap s w = (.swapCreated w.id, { s with swaps := s.swaps ++ [w] }) := by
  unfold persistSwap Swap.insert at h ⊢
  by_cases hdup : (s.swaps.any fun x => x.id == w.id) = true
  · rw [if_pos hdup] at h
    simp [Response.isSuccess, Response.status] at h
  · rw [if_neg hdup]

/-- What a create that answers 200 has checked and done. -/
theorem createSwap_success_inv (s : Store) (r : UserId) (b : CreateBody) (newId : SwapId)
    (h : (createSwap s r b newId).1.isSuccess = true) :
    ∃ itemId type item, b.valid = true ∧ b.itemId = some itemId ∧ b.type = some type ∧
      Item.findAvailable s.items itemId = some item ∧ item.userId ≠ r ∧
      (type = .points → ∃ user, User.findById s.users r = some user ∧
        pointsBelow user.points b.pointsOffered = false) ∧
      createSwap s r b newId =
        (.swapCreated newId, { s with swaps := s.swaps ++
          [Swap.new newId r itemId type (b.pointsOffered.getD 0)] }) := by
  obtain ⟨bi, bt, bp⟩ := b
  unfold createSwap at h ⊢
  by_cases hv : (CreateBody.mk bi bt bp).valid = true
  · cases bi with
    | none => simp [hv, Response.isSuccess, Response.status] at h
    | some itemId =>
      cases bt with
      | none => simp [hv, Response.isSuccess, Response.status] at h
      | some type =>
        cases hfind : Item.findAvailable s.items itemId with
        | none => simp [hv, hfind, Response.isSuccess, Response.status] at h
        | some item =>
          by_cases hown : item.userId = r
          · simp [hv, hfind, hown, Response.isSuccess, Response.status] at h
          · cases type with
            | swap =>
              simp [hv, hfind, hown] at h
              have := persistSwap_success _ _ h
              refine ⟨itemId, .swap, item, hv, rfl, rfl, hfind, hown, by simp, ?_⟩
              simpa [hv, hfind, hown] using this
            | points =>
              cases huser : User.findById s.users r with
              | none => simp [hv, hfind, hown, huser, Response.isSuccess, Response.status] at h
              | some user =>
                by_cases hlow : pointsBelow user.points bp = true
                · simp [hv, hfind, hown, huser, hlow, Response.isSuccess, Response.status] at h
                · simp [hv, hfind, hown, huser, hlow] at h
                  have := persistSwap_success _ _ h
                  refine ⟨itemId, .points, item, hv, rfl, rfl, hfind, hown, ?_, ?_⟩
                  · intro _; exact ⟨user, rfl, by simpa using hlow⟩
                  · simpa [hv, hfind, hown, huser, hlow] using this
  · simp [hv, Response.isSuccess, Response.status] at h

/-! ## The swap ledger: claims -/

/-- Claim C1 (conservation), evaluated on the code: in `ghostStore` the requester of the
pending 20-point offer has no account.  The owner's accept answers 200; the debit finds
no document and changes nothing, the credit gives the owner 20 points, and the sum over
all accounts goes from 35 to 55. -/
theorem accept_credits_without_debit :
    User.findById ghostStore.users 7 = none ∧
    Swap.findById ghostStore.swaps 100 = some ⟨100, 7, 10, .points, 20, .pending, none⟩ ∧
    (acceptSwap ghostStore 1 100 9).1 = .swapAccepted ∧
    (acceptSwap ghostStore 1 100 9).2.users = [⟨1, 25⟩, ⟨2, 30⟩] ∧
    totalPoints ghostStore.users = 35 ∧
    totalPoints (acceptSwap ghostStore 1 100 9).2.users = 55 := by
  decide

/-- Where the requester and the owner both have an account, the accept of a pending points
request that answers 200 conserves the points: the sum over all accounts is unchanged, the
list of accounts is the same, the requester's balance has gone down by `pointsOffered`, the
owner's has gone up by `pointsOffered`, and every other account has the balance it had. -/
theorem accept_points_conserves_total (s : Store) (actor : UserId) (swapId : SwapId)
    (now : Nat) (swap : Swap)
    (hswap : Swap.findById s.swaps swapId = some swap)
    (hpend : swap.status = .pending) (htype : swap.type = .points)
    (hok : (acceptSwap s actor swapId now).1 = .swapAccepted)
    (hreq : (User.findById s.users swap.requesterId).isSome)
    (hact : (User.findById s.users actor).isSome) :
    totalPoints (acceptSwap s actor swapId now).2.users = totalPoints s.users ∧
    ((acceptSwap s actor swapId now).2.users.map (fun u => u.id) = s.users.map (fun u => u.id)) ∧
    (swap.requesterId ≠ actor →
      pointsOf (acceptSwap s actor swapId now).2.users swap.requesterId =
        (pointsOf s.users swap.requesterId).map (fun p => p - swap.pointsOffered) ∧
      pointsOf (acceptSwap s actor swapId now).2.users actor =
        (pointsOf s.users actor).map (fun p => p + swap.pointsOffered)) ∧
    (∀ uid, uid ≠ swap.requesterId → uid ≠ actor →
      pointsOf (acceptSwap s actor swapId now).2.users uid = pointsOf s.users uid) := by
  obtain ⟨swap', item, hswap', hitem, hown, -⟩ := acceptSwap_success_inv s actor swapId now hok
  rw [hswap] at hswap'
  cases hswap'
  rw [acceptSwap_of_guards s actor swapId now swap item hswap hitem hown hpend]
  simp only [htype, if_true]
  have hact' : (User.findById (User.incPoints s.users swap.requesterId (-swap.pointsOffered))
      actor).isSome := by
    rw [user_findById_incPoints]
    split
    · simpa using hreq
    · exact hact
  refine ⟨?_, ?_, ?_, ?_⟩
  · rw [totalPoints_incPoints _ _ _ hact', totalPoints_incPoints _ _ _ hreq]; ring
  · rw [user_map_id_incPoints, user_map_id_incPoints]
  · intro hne
    have hne' : ¬ actor = swap.requesterId := fun h => hne h.symm
    constructor
    · rw [pointsOf_incPoints, if_neg hne, pointsOf_incPoints, if_pos rfl]
      simp [sub_eq_add_neg]
    · rw [pointsOf_incPoints, if_pos rfl, pointsOf_incPoints, if_neg hne']
  · intro uid h1 h2
    rw [pointsOf_incPoints, if_neg h2, pointsOf_incPoints, if_neg h1]

/-- Conservation at `demoStore`: user 1 accepts the 20-point offer of user 2. -/
theorem accept_points_conserves_total_witness :
    (acceptSwap demoStore 1 100 7).1 = .swapAccepted ∧
    totalPoints (acceptSwap demoStore 1 100 7).2.users = totalPoints demoStore.users ∧
    pointsOf (acceptSwap demoStore 1 100 7).2.users 2 =
      (pointsOf demoStore.users 2).map (fun p => p - 20) :=
  ⟨by decide,
   (accept_points_conserves_total demoStore 1 100 7 ⟨100, 2, 10, .points, 20, .pending, none⟩
      (by decide) rfl rfl (by decide) (by decide) (by decide)).1,
   ((accept_points_conserves_total demoStore 1 100 7 ⟨100, 2, 10, .points, 20, .pending, none⟩
      (by decide) rfl rfl (by decide) (by decide) (by decide)).2.2.1 (by decide)).1⟩

/-- Claim C2 (points never negative), evaluated on the code: every balance of
`overdraftStart` is non-negative, both offers of 20 fit the balance of 30 when they are
created, all four requests answer 200, and user 2 ends with -10 points. -/
theorem accepts_overdraw_requester :
    (∀ u ∈ overdraftStart.users, 0 ≤ u.points) ∧
    (run overdraftStart overdraftOps).1 =
      [.swapCreated 100, .swapCreated 101, .swapAccepted, .swapAccepted] ∧
    pointsOf (run overdraftStart overdraftOps).2.users 2 = some (-10) := by
  decide

/-- Claim C3 (one accept per item), evaluated on the code: two pending requests on item 10
are accepted one after the other, both accepts answer 200, both requests end Accepted and
both requesters have paid. -/
theorem accepts_same_item_twice :
    (run raceStart raceOps).1 =
      [.swapCreated 100, .swapCreated 101, .swapAccepted, .swapAccepted] ∧
    (Swap.findById (run raceStart raceOps).2.swaps 100).map (fun w => (w.itemId, w.status)) =
      some (10, .accepted) ∧
    (Swap.findById (run raceStart raceOps).2.swaps 101).map (fun w => (w.itemId, w.status)) =
      some (10, .accepted) ∧
    (run raceStart raceOps).2.users = [⟨1, 45⟩, ⟨2, 10⟩, ⟨3, 5⟩] := by
  decide

/-- Claim C4 (accept fails on insufficient funds), evaluated on the code: in `overdraftMid`
user 2 holds 10 points and has a pending offer of 20 on the available item 11; the owner's
accept answers 200, the request is Accepted with `completedAt` set, the item is no longer
available and user 2 holds -10 points. -/
theorem accept_ignores_requester_balance :
    pointsOf overdraftMid.users 2 = some 10 ∧
    Swap.findById overdraftMid.swaps 101 = some ⟨101, 2, 11, .points, 20, .pending, none⟩ ∧
    (Item.findById overdraftMid.items 11).map (fun i => i.isAvailable) = some true ∧
    (acceptSwap overdraftMid 1 101 6).1 = .swapAccepted ∧
    Swap.findById (acceptSwap overdraftMid 1 101 6).2.swaps 101 =
      some ⟨101, 2, 11, .points, 20, .accepted, some 6⟩ ∧
    (Item.findById (acceptSwap overdraftMid 1 101 6).2.items 11).map (fun i => i.isAvailable) =
      some false ∧
    pointsOf (acceptSwap overdraftMid 1 101 6).2.users 2 = some (-10) := by
  decide

/-- Claim C5 (non-owner): for an existing request, whatever its status, whose item exists
and is owned by someone other than the actor, accept and reject both answer 403
`Not authorized` and leave the whole store (requests, items, balances) as it was. -/
theorem non_owner_not_authorized (s : Store) (actor : UserId) (swapId : SwapId) (now : Nat)
    (swap : Swap) (item : Item)
    (hswap : Swap.findById s.swaps swapId = some swap)
    (hitem : Item.findById s.items swap.itemId = some item)
    (hactor : item.userId ≠ actor) :
    acceptSwap s actor swapId now = (.notAuthorized, s) ∧
    rejectSwap s actor swapId now = (.notAuthorized, s) := by
  simp [acceptSwap, rejectSwap, hswap, hitem, hactor]

/-- Claim C5 at `demoStore`: user 2 tries to accept and to reject a request on an item of
user 1. -/
theorem non_owner_not_authorized_witness :
    acceptSwap demoStore 2 100 7 = (.notAuthorized, demoStore) ∧
    rejectSwap demoStore 2 100 7 = (.notAuthorized, demoStore) :=
  non_owner_not_authorized demoStore 2 100 7 ⟨100, 2, 10, .points, 20, .pending, none⟩
    ⟨10, 1, true, "approved"⟩ (by decide) (by decide) (by decide)

/-- Claim C6 (terminal states): for a request whose status is not Pending, accept and reject
by the owner of its item both answer 400 `Swap request already processed` and leave the
whole store (the request with its status and `completedAt`, items, balances) as it was. -/
theorem processed_request_is_terminal (s : Store) (actor : UserId) (swapId : SwapId)
    (now : Nat) (swap : Swap) (item : Item)
    (hswap : Swap.findById s.swaps swapId = some swap)
    (hitem : Item.findById s.items swap.itemId = some item)
    (hown : item.userId = actor)
    (hdone : swap.status ≠ .pending) :
    acceptSwap s actor swapId now = (.alreadyProcessed, s) ∧
    rejectSwap s actor swapId now = (.alreadyProcessed, s) := by
  simp [acceptSwap, rejectSwap, hswap, hitem, hown, hdone]

/-- Claim C6 at `demoStore`: user 1 tries to accept and to reject the rejected request 102. -/
theorem processed_request_is_terminal_witness :
    acceptSwap demoStore 1 102 7 = (.alreadyProcessed, demoStore) ∧
    rejectSwap demoStore 1 102 7 = (.alreadyProcessed, demoStore) :=
  processed_request_is_terminal demoStore 1 102 7 ⟨102, 2, 11, .swap, 0, .rejected, some 3⟩
    ⟨11, 1, true, "approved"⟩ (by decide) (by decide) (by decide) (by decide)

/-- Claim C7 (reject twice): for a pending request, the owner's first reject answers 200 and
stores the request as Rejected with `completedAt` the time of that call; a second reject, at
any later time, answers 400 `Swap request already processed` and returns the store the
first call left. -/
theorem reject_twice (s : Store) (actor : UserId) (swapId : SwapId) (now later : Nat)
    (swap : Swap) (item : Item)
    (hswap : Swap.findById s.swaps swapId = some swap)
    (hitem : Item.findById s.items swap.itemId = some item)
    (hown : item.userId = actor)
    (hpend : swap.status = .pending) :
    (rejectSwap s actor swapId now).1 = .swapRejected ∧
    Swap.findById (rejectSwap s actor swapId now).2.swaps swapId =
      some { swap with status := .rejected, completedAt := some now } ∧
    rejectSwap (rejectSwap s actor swapId now).2 actor swapId later =
      (.alreadyProcessed, (rejectSwap s actor swapId now).2) := by
  have hid : swap.id = swapId := swap_findById_id hswap
  have h1 : rejectSwap s actor swapId now =
      (.swapRejected, { s with
        swaps := Swap.save s.swaps { swap with status := .rejected, completedAt := some now } }) := by
    simp [rejectSwap, hswap, hitem, hown, hpend]
  have h2 : Swap.findById
      (Swap.save s.swaps { swap with status := .rejected, completedAt := some now }) swapId =
      some { swap with status := .rejected, completedAt := some now } := by
    rw [swap_findById_save]
    simp [hid, hswap]
  rw [h1]
  refine ⟨rfl, h2, ?_⟩
  simp [rejectSwap, h2, hitem, hown]

/-- Claim C7 at `demoStore`: user 1 rejects request 101 at time 7 and again at time 9. -/
theorem reject_twice_witness :
    (rejectSwap demoStore 1 101 7).1 = .swapRejected ∧
    Swap.findById (rejectSwap demoStore 1 101 7).2.swaps 101 =
      some ⟨101, 3, 10, .swap, 0, .rejected, some 7⟩ ∧
    rejectSwap (rejectSwap demoStore 1 101 7).2 1 101 9 =
      (.alreadyProcessed, (rejectSwap demoStore 1 101 7).2) :=
  reject_twice demoStore 1 101 7 9 ⟨101, 3, 10, .swap, 0, .pending, none⟩
    ⟨10, 1, true, "approved"⟩ (by decide) (by decide) (by decide) (by decide)

/-- Claim C8 as stated fails: user 2 holds 30 points and offers 50 for item 12, which is not
available; the create answers 404 `Item not available`, not `Insufficient points`. -/
theorem create_overdraft_on_unavailable_item :
    pointsOf demoStore.users 2 = some 30 ∧
    createSwap demoStore 2 ⟨some 12, some .points, some 50⟩ 103 =
      (.itemNotAvailable, demoStore) ∧
    (createSwap demoStore 2 ⟨some 12, some .points, some 50⟩ 103).1 ≠ .insufficientPoints := by
  decide

/-- Claim C8, amended: for a points create by an existing requester, (1) whenever
`pointsOffered` exceeds the requester's points the create fails and leaves the store as it
was, and the failure is `Insufficient points` when the body is valid and the item is
available, approved and not the requester's own; (2) when a create succeeds and the
requester's balance is not negative, the one request it adds is a points request of that
requester with `0 ≤ pointsOffered ≤ points`. -/
theorem create_points_funds_check (s : Store) (r : UserId) (b : CreateBody) (newId : SwapId)
    (user : User)
    (htype : b.type = some .points)
    (huser : User.findById s.users r = some user) :
    (∀ p, b.pointsOffered = some p → user.points < p →
      (createSwap s r b newId).1.isSuccess = false ∧ (createSwap s r b newId).2 = s ∧
      (b.valid = true →
        (∃ itemId item, b.itemId = some itemId ∧
          Item.findAvailable s.items itemId = some item ∧ item.userId ≠ r) →
        (createSwap s r b newId).1 = .insufficientPoints)) ∧
    ((createSwap s r b newId).1.isSuccess = true → 0 ≤ user.points →
      ∃ w, (createSwap s r b newId).2.swaps = s.swaps ++ [w] ∧ w.type = .points ∧
        w.requesterId = r ∧ 0 ≤ w.pointsOffered ∧ w.pointsOffered ≤ user.points) := by
  constructor
  · intro p hp hlt
    have hlow : pointsBelow user.points b.pointsOffered = true := by
      simp [pointsBelow, hp, hlt]
    have hfail : (createSwap s r b newId).1.isSuccess = false := by
      by_contra hne
      have hs : (createSwap s r b newId).1.isSuccess = true := by simpa using hne
      obtain ⟨itemId, type, item, -, -, ht, -, -, hfunds, -⟩ :=
        createSwap_success_inv s r b newId hs
      rw [htype] at ht
      cases ht
      obtain ⟨u, hu, hb⟩ := hfunds rfl
      rw [huser] at hu
      cases hu
      rw [hlow] at hb
      exact Bool.noConfusion hb
    refine ⟨hfail, createSwap_failure_state s r b newId hfail, ?_⟩
    rintro hv ⟨itemId, item, hi, hfind, hown⟩
    obtain ⟨bi, bt, bp⟩ := b
    simp only at htype hi hlow
    subst htype hi
    simp [createSwap, hv, hfind, hown, huser, hlow]
  · intro hs hnn
    obtain ⟨itemId, type, item, hv, -, ht, -, -, hfunds, heq⟩ :=
      createSwap_success_inv s r b newId hs
    rw [htype] at ht
    cases ht
    obtain ⟨u, hu, hb⟩ := hfunds rfl
    rw [huser] at hu
    cases hu
    refine ⟨Swap.new newId r itemId .points (b.pointsOffered.getD 0), by rw [heq], rfl, rfl, ?_, ?_⟩
    · cases hp : b.pointsOffered with
      | none => simp [Swap.new]
      | some p =>
        simp [CreateBody.valid, hp] at hv
        simpa [Swap.new] using hv.2
    · cases hp : b.pointsOffered with
      | none => simpa [Swap.new] using hnn
      | some p =>
        simp [pointsBelow, hp] at hb
        simpa [Swap.new] using hb

/-- Claim C8 at `demoStore`: user 2 (30 points) offers 50 for the available item 11 and is
refused; offering 20, the request is stored with `pointsOffered` between 0 and 30. -/
theorem create_points_funds_check_witness :
    ((createSwap demoStore 2 ⟨some 11, some .points, some 50⟩ 103).1 = .insufficientPoints ∧
      (createSwap demoStore 2 ⟨some 11, some .points, some 50⟩ 103).2 = demoStore) ∧
    (∃ w, (createSwap demoStore 2 ⟨some 11, some .points, some 20⟩ 103).2.swaps =
        demoStore.swaps ++ [w] ∧ w.type = .points ∧ w.requesterId = 2 ∧
        0 ≤ w.pointsOffered ∧ w.pointsOffered ≤ 30) :=
  ⟨⟨((create_points_funds_check demoStore 2 ⟨some 11, some .points, some 50⟩ 103 ⟨2, 30⟩
        rfl (by decide)).1 50 rfl (by decide)).2.2 (by decide)
        ⟨11, ⟨11, 1, true, "approved"⟩, rfl, by decide, by decide⟩,
     ((create_points_funds_check demoStore 2 ⟨some 11, some .points, some 50⟩ 103 ⟨2, 30⟩
        rfl (by decide)).1 50 rfl (by decide)).2.1⟩,
   (create_points_funds_check demoStore 2 ⟨some 11, some .points, some 20⟩ 103 ⟨2, 30⟩
      rfl (by decide)).2 (by decide) (by decide)⟩

/-- Claim C9 (create needs an available item of someone else): when every item with the
requested id is unavailable or owned by the requester (in particular when there is no such
item), the create does not answer 200 and leaves the store, and so the requests, as they
were. -/
theorem create_needs_available_foreign_item (s : Store) (r : UserId) (b : CreateBody)
    (newId : SwapId)
    (h : ∀ it ∈ s.items, some it.id = b.itemId → it.isAvailable = false ∨ it.userId = r) :
    (createSwap s r b newId).1.isSuccess = false ∧ (createSwap s r b newId).2 = s := by
  have hfail : (createSwap s r b newId).1.isSuccess = false := by
    by_contra hne
    have hs : (createSwap s r b newId).1.isSuccess = true := by simpa using hne
    obtain ⟨itemId, type, item, -, hi, -, hfind, hown, -, -⟩ :=
      createSwap_success_inv s r b newId hs
    obtain ⟨hmem, hid, hav, -⟩ := item_findAvailable_spec hfind
    rcases h item hmem (by rw [hi, hid]) with h1 | h1
    · rw [hav] at h1; exact Bool.noConfusion h1
    · exact hown h1
  exact ⟨hfail, createSwap_failure_state s r b newId hfail⟩

/-- Claim C9 at `demoStore`: user 2 asks for item 12, which is no longer available. -/
theorem create_needs_available_foreign_item_witness :
    (createSwap demoStore 2 ⟨some 12, some .swap, none⟩ 103).1.isSuccess = false ∧
    (createSwap demoStore 2 ⟨some 12, some .swap, none⟩ 103).2 = demoStore :=
  create_needs_available_foreign_item demoStore 2 ⟨some 12, some .swap, none⟩ 103 (by decide)

/-- Claim C10 (frame of create): a create that answers 200 returns the store with the same
users and items and with exactly one request appended: the new request of the requester for
the item and kind of the body, Pending, without `completedAt`; the item is still found
available afterwards. -/
theorem create_success_frame (s : Store) (r : UserId) (b : CreateBody) (newId : SwapId)
    (h : (createSwap s r b newId).1.isSuccess = true) :
    ∃ itemId type, b.itemId = some itemId ∧ b.type = some type ∧
      createSwap s r b newId =
        (.swapCreated newId,
          { users := s.users, items := s.items,
            swaps := s.swaps ++
              [{ id := newId, requesterId := r, itemId := itemId, type := type,
                 pointsOffered := b.pointsOffered.getD 0, status := .pending,
                 completedAt := none }] }) ∧
      (Item.findAvailable (createSwap s r b newId).2.items itemId).isSome = true := by
  obtain ⟨itemId, type, item, -, hi, ht, hfind, -, -, heq⟩ :=
    createSwap_success_inv s r b newId h
  refine ⟨itemId, type, hi, ht, ?_, ?_⟩
  · rw [heq]; rfl
  · rw [heq]; simp [hfind]

/-- Claim C10 at `demoStore`: user 3 asks for item 11. -/
theorem create_success_frame_witness :
    ∃ itemId type, (some 11 : Option ItemId) = some itemId ∧
      (some SwapType.swap : Option SwapType) = some type ∧
      createSwap demoStore 3 ⟨some 11, some .swap, none⟩ 103 =
        (.swapCreated 103,
          { users := demoStore.users, items := demoStore.items,
            swaps := demoStore.swaps ++
              [{ id := 103, requesterId := 3, itemId := itemId, type := type,
                 pointsOffered := 0, status := .pending, completedAt := none }] }) ∧
      (Item.findAvailable (createSwap demoStore 3 ⟨some 11, some .swap, none⟩ 103).2.items
        itemId).isSome = true :=
  create_success_frame demoStore 3 ⟨some 11, some .swap, none⟩ 103 (by decide)

/-! ## The swap ledger: further lemmas and claims -/

theorem item_findById_markUnavailable (is : List Item) (iid id : ItemId) :
    Item.findById (Item.markUnavailable is iid) id =
      if id = iid then (Item.findById is iid).map (fun i => { i with isAvailable := false })
      else Item.findById is id :=
  find?_updateFirst (fun i : Item => i.id) (fun i => { i with isAvailable := false })
    (fun _ => rfl) iid id is

theorem mem_updateFirst {α : Type} (p : α → Bool) (f : α → α) (l : List α) (x : α)
    (h : x ∈ updateFirst p f l) : x ∈ l ∨ ∃ y ∈ l, x = f y := by
  induction l with
  | nil => simp [updateFirst] at h
  | cons a as ih =>
    by_cases ha : p a = true
    · simp [updateFirst, ha] at h
      rcases h with h | h
      · exact Or.inr ⟨a, by simp, h⟩
      · exact Or.inl (by simp [h])
    · simp [updateFirst, ha] at h
      rcases h with h | h
      · exact Or.inl (by simp [h])
      · rcases ih h with h' | ⟨y, hy, hxy⟩
        · exact Or.inl (by simp [h'])
        · exact Or.inr ⟨y, by simp [hy], hxy⟩

theorem length_updateFirst {α : Type} (p : α → Bool) (f : α → α) (l : List α) :
    (updateFirst p f l).length = l.length := by
  induction l with
  | nil => rfl
  | cons a as ih =>
    by_cases ha : p a = true
    · simp [updateFirst, ha]
    · simp [updateFirst, ha, ih]

theorem updateFirst_idem {α : Type} (p : α → Bool) (f : α → α)
    (hp : ∀ x, p (f x) = p x) (hf : ∀ x, f (f x) = f x) (l : List α) :
    updateFirst p f (updateFirst p f l) = updateFirst p f l := by
  induction l with
  | nil => rfl
  | cons a as ih =>
    by_cases ha : p a = true
    · simp [updateFirst, ha, hp, hf]
    · simp [updateFirst, ha, ih]

/-- The effect of a reject that passes the three guards. -/
theorem rejectSwap_of_guards (s : Store) (actor : UserId) (swapId : SwapId) (now : Nat)
    (swap : Swap) (item : Item)
    (hswap : Swap.findById s.swaps swapId = some swap)
    (hitem : Item.findById s.items swap.itemId = some item)
    (hown : item.userId = actor) (hpend : swap.status = .pending) :
    rejectSwap s actor swapId now =
      (.swapRejected,
        { users := s.users, items := s.items,
          swaps := Swap.save s.swaps { swap with status := .rejected, completedAt := some now } }) := by
  simp [rejectSwap, hswap, hitem, hown, hpend]

/-- An accept either leaves the store alone, answering an error, or passes its guards. -/
theorem acceptSwap_cases (s : Store) (actor : UserId) (swapId : SwapId) (now : Nat) :
    ((acceptSwap s actor swapId now).1 ≠ .swapAccepted ∧ (acceptSwap s actor swapId now).2 = s) ∨
    ∃ swap item, Swap.findById s.swaps swapId = some swap ∧
      Item.findById s.items swap.itemId = some item ∧
      item.userId = actor ∧ swap.status = .pending := by
  unfold acceptSwap
  cases hswap : Swap.findById s.swaps swapId with
  | none => simp
  | some swap =>
    cases hitem : Item.findById s.items swap.itemId with
    | none => simp [hitem]
    | some item =>
      by_cases hown : item.userId = actor
      · by_cases hpend : swap.status = .pending
        · exact Or.inr ⟨swap, item, rfl, hitem, hown, hpend⟩
        · simp [hitem, hown, hpend]
      · simp [hitem, hown]

/-- A reject either leaves the store alone, answering an error, or passes its guards. -/
theorem rejectSwap_cases (s : Store) (actor : UserId) (swapId : SwapId) (now : Nat) :
    ((rejectSwap s actor swapId now).1 ≠ .swapRejected ∧ (rejectSwap s actor swapId now).2 = s) ∨
    ∃ swap item, Swap.findById s.swaps swapId = some swap ∧
      Item.findById s.items swap.itemId = some item ∧
      item.userId = actor ∧ swap.status = .pending := by
  unfold rejectSwap
  cases hswap : Swap.findById s.swaps swapId with
  | none => simp
  | some swap =>
    cases hitem : Item.findById s.items swap.itemId with
    | none => simp [hitem]
    | some item =>
      by_cases hown : item.userId = actor
      · by_cases hpend : swap.status = .pending
        · exact Or.inr ⟨swap, item, rfl, hitem, hown, hpend⟩
        · simp [hitem, hown, hpend]
      · simp [hitem, hown]

/-- Claim C11 (effects of accept): for a pending request whose item exists, accept by the
item's owner answers 200; afterwards the request is Accepted with `completedAt` the time of
the call and the item is unavailable.  For kind `swap` the accounts are untouched, whatever
`pointsOffered` the request stores; for kind `points` the only change to the accounts is
`pointsOffered` taken from the requester and given to the owner. -/
theorem accept_pending_effects (s : Store) (actor : UserId) (swapId : SwapId) (now : Nat)
    (swap : Swap) (item : Item)
    (hswap : Swap.findById s.swaps swapId = some swap)
    (hitem : Item.findById s.items swap.itemId = some item)
    (hown : item.userId = actor) (hpend : swap.status = .pending) :
    (acceptSwap s actor swapId now).1 = .swapAccepted ∧
    Swap.findById (acceptSwap s actor swapId now).2.swaps swapId =
      some { swap with status := .accepted, completedAt := some now } ∧
    Item.findById (acceptSwap s actor swapId now).2.items swap.itemId =
      some { item with isAvailable := false } ∧
    (swap.type = .swap → (acceptSwap s actor swapId now).2.users = s.users) ∧
    (swap.type = .points →
      (acceptSwap s actor swapId now).2.users =
        User.incPoints (User.incPoints s.users swap.requesterId (-swap.pointsOffered))
          actor swap.pointsOffered ∧
      (swap.requesterId ≠ actor →
        pointsOf (acceptSwap s actor swapId now).2.users swap.requesterId =
          (pointsOf s.users swap.requesterId).map (fun p => p - swap.pointsOffered) ∧
        pointsOf (acceptSwap s actor swapId now).2.users actor =
          (pointsOf s.users actor).map (fun p => p + swap.pointsOffered)) ∧
      (∀ uid, uid ≠ swap.requesterId → uid ≠ actor →
        pointsOf (acceptSwap s actor swapId now).2.users uid = pointsOf s.users uid)) := by
  have hid : swap.id = swapId := swap_findById_id hswap
  have hiid : item.id = swap.itemId := item_findById_id hitem
  rw [acceptSwap_of_guards s actor swapId now swap item hswap hitem hown hpend]
  refine ⟨rfl, ?_, ?_, ?_, ?_⟩
  · simp only
    rw [swap_findById_save]
    simp [hid, hswap]
  · simp only
    have hfind : Item.findById s.items item.id = some item := by rw [hiid]; exact hitem
    rw [item_findById_markUnavailable, if_pos hiid.symm, hfind]
    rfl
  · intro ht
    simp [ht]
  · intro ht
    simp only [ht, if_true]
    refine ⟨trivial, ?_, ?_⟩
    · intro hne
      have hne' : ¬ actor = swap.requesterId := fun h => hne h.symm
      constructor
      · rw [pointsOf_incPoints, if_neg hne, pointsOf_incPoints, if_pos rfl]
        simp [sub_eq_add_neg]
      · rw [pointsOf_incPoints, if_pos rfl, pointsOf_incPoints, if_neg hne']
    · intro uid h1 h2
      rw [pointsOf_incPoints, if_neg h2, pointsOf_incPoints, if_neg h1]

/-- Claim C11 at `demoStore`: user 1 accepts the 20-point offer 100 of user 2 on item 10. -/
theorem accept_pending_effects_witness :
    (acceptSwap demoStore 1 100 7).1 = .swapAccepted ∧
    Swap.findById (acceptSwap demoStore 1 100 7).2.swaps 100 =
      some ⟨100, 2, 10, .points, 20, .accepted, some 7⟩ ∧
    Item.findById (acceptSwap demoStore 1 100 7).2.items 10 =
      some ⟨10, 1, false, "approved"⟩ :=
  ⟨(accept_pending_effects demoStore 1 100 7 ⟨100, 2, 10, .points, 20, .pending, none⟩
      ⟨10, 1, true, "approved"⟩ (by decide) (by decide) (by decide) (by decide)).1,
   (accept_pending_effects demoStore 1 100 7 ⟨100, 2, 10, .points, 20, .pending, none⟩
      ⟨10, 1, true, "approved"⟩ (by decide) (by decide) (by decide) (by decide)).2.1,
   (accept_pending_effects demoStore 1 100 7 ⟨100, 2, 10, .points, 20, .pending, none⟩
      ⟨10, 1, true, "approved"⟩ (by decide) (by decide) (by decide) (by decide)).2.2.1⟩


/-- Claim C12 (frame of reject): for a pending request whose item exists, reject by the
item's owner answers 200 and stores the request as Rejected with `completedAt` the time of
the call; the users and the items are the same lists as before, the number of requests is
the same, every other request id resolves to the request it resolved to before, and every
stored request is an old one or the rejected one. -/
theorem reject_pending_frame (s : Store) (actor : UserId) (swapId : SwapId) (now : Nat)
    (swap : Swap) (item : Item)
    (hswap : Swap.findById s.swaps swapId = some swap)
    (hitem : Item.findById s.items swap.itemId = some item)
    (hown : item.userId = actor) (hpend : swap.status = .pending) :
    (rejectSwap s actor swapId now).1 = .swapRejected ∧
    Swap.findById (rejectSwap s actor swapId now).2.swaps swapId =
      some { swap with status := .rejected, completedAt := some now } ∧
    (rejectSwap s actor swapId now).2.users = s.users ∧
    (rejectSwap s actor swapId now).2.items = s.items ∧
    (rejectSwap s actor swapId now).2.swaps.length = s.swaps.length ∧
    (∀ id, id ≠ swapId →
      Swap.findById (rejectSwap s actor swapId now).2.swaps id = Swap.findById s.swaps id) ∧
    (∀ w ∈ (rejectSwap s actor swapId now).2.swaps,
      w ∈ s.swaps ∨ w = { swap with status := .rejected, completedAt := some now }) := by
  have hid : swap.id = swapId := swap_findById_id hswap
  rw [rejectSwap_of_guards s actor swapId now swap item hswap hitem hown hpend]
  refine ⟨rfl, ?_, rfl, rfl, ?_, ?_, ?_⟩
  · simp only
    rw [swap_findById_save]
    simp [hid, hswap]
  · simp only [Swap.save, length_updateFirst]
  · intro id hne
    simp only
    rw [swap_findById_save]
    simp [hid, hne]
  · intro w hw
    simp only [Swap.save] at hw
    rcases mem_updateFirst _ _ _ _ hw with h | ⟨_, _, h⟩
    · exact Or.inl h
    · exact Or.inr h


/-- Claim C12 at `demoStore`: user 1 rejects request 101. -/
theorem reject_pending_frame_witness :
    (rejectSwap demoStore 1 101 7).1 = .swapRejected ∧
    Swap.findById (rejectSwap demoStore 1 101 7).2.swaps 101 =
      some ⟨101, 3, 10, .swap, 0, .rejected, some 7⟩ ∧
    (rejectSwap demoStore 1 101 7).2.users = demoStore.users ∧
    (rejectSwap demoStore 1 101 7).2.items = demoStore.items :=
  ⟨(reject_pending_frame demoStore 1 101 7 ⟨101, 3, 10, .swap, 0, .pending, none⟩
      ⟨10, 1, true, "approved"⟩ (by decide) (by decide) (by decide) (by decide)).1,
   (reject_pending_frame demoStore 1 101 7 ⟨101, 3, 10, .swap, 0, .pending, none⟩
      ⟨10, 1, true, "approved"⟩ (by decide) (by decide) (by decide) (by decide)).2.1,
   (reject_pending_frame demoStore 1 101 7 ⟨101, 3, 10, .swap, 0, .pending, none⟩
      ⟨10, 1, true, "approved"⟩ (by decide) (by decide) (by decide) (by decide)).2.2.1,
   (reject_pending_frame demoStore 1 101 7 ⟨101, 3, 10, .swap, 0, .pending, none⟩
      ⟨10, 1, true, "approved"⟩ (by decide) (by decide) (by decide) (by decide)).2.2.2.1⟩


theorem step_completedIffProcessed (s : Store) (op : Op) (h : completedIffProcessed s) :
    completedIffProcessed (step s op).2 := by
  cases op with
  | create r b n =>
    simp only [step]
    by_cases hs : (createSwap s r b n).1.isSuccess = true
    · obtain ⟨itemId, type, item, -, -, -, -, -, -, heq⟩ := createSwap_success_inv s r b n hs
      rw [heq]
      intro w hw
      simp only [List.mem_append, List.mem_singleton] at hw
      rcases hw with hw | hw
      · exact h w hw
      · subst hw; simp [Swap.new]
    · rw [createSwap_failure_state s r b n (by simpa using hs)]
      exact h
  | accept a w t =>
    simp only [step]
    rcases acceptSwap_cases s a w t with ⟨-, hst⟩ | ⟨swap, item, hswap, hitem, hown, hpend⟩
    · rw [hst]; exact h
    · rw [acceptSwap_of_guards s a w t swap item hswap hitem hown hpend]
      intro x hx
      simp only [Swap.save] at hx
      rcases mem_updateFirst _ _ _ _ hx with hx | ⟨_, _, hx⟩
      · exact h x hx
      · subst hx; simp
  | reject a w t =>
    simp only [step]
    rcases rejectSwap_cases s a w t with ⟨-, hst⟩ | ⟨swap, item, hswap, hitem, hown, hpend⟩
    · rw [hst]; exact h
    · rw [rejectSwap_of_guards s a w t swap item hswap hitem hown hpend]
      intro x hx
      simp only [Swap.save] at hx
      rcases mem_updateFirst _ _ _ _ hx with hx | ⟨_, _, hx⟩
      · exact h x hx
      · subst hx; simp

theorem run_completedIffProcessed (ops : List Op) :
    ∀ s : Store, completedIffProcessed s → completedIffProcessed (run s ops).2 := by
  induction ops with
  | nil => intro s h; exact h
  | cons op ops ih =>
    intro s h
    simp only [run]
    exact ih _ (step_completedIffProcessed s op h)

/-- Claim C13 (completedAt iff processed): starting with no requests, after any sequence of
create, accept and reject requests every stored request has `completedAt` set exactly when
its status is not Pending. -/
theorem completedAt_iff_processed (s : Store) (ops : List Op) (hempty : s.swaps = []) :
    ∀ w ∈ (run s ops).2.swaps, (w.completedAt.isSome = true ↔ w.status ≠ .pending) := by
  apply run_completedIffProcessed ops s
  intro w hw
  rw [hempty] at hw
  simp at hw

/-- Claim C13 on the run of `overdraftOps` from `overdraftStart`, which has no requests. -/
theorem completedAt_iff_processed_witness :
    overdraftStart.swaps = [] ∧
    (run overdraftStart overdraftOps).2.swaps.all
      (fun w => decide (w.completedAt.isSome = true ↔ w.status ≠ .pending)) = true :=
  ⟨rfl, List.all_eq_true.mpr (fun w hw =>
    decide_eq_true (completedAt_iff_processed overdraftStart overdraftOps rfl w hw))⟩


/-- What one request does to the item with a given id. -/
theorem step_item (s : Store) (op : Op) (id : ItemId) :
    Item.findById (step s op).2.items id = Item.findById s.items id ∨
    ∃ actor swapId now swap item, op = .accept actor swapId now ∧
      (step s op).1 = .swapAccepted ∧
      Swap.findById s.swaps swapId = some swap ∧ swap.itemId = id ∧
      Item.findById s.items id = some item ∧
      Item.findById (step s op).2.items id = some { item with isAvailable := false } := by
  cases op with
  | create r b n =>
    left
    simp only [step]
    by_cases hs : (createSwap s r b n).1.isSuccess = true
    · obtain ⟨itemId, type, item, -, -, -, -, -, -, heq⟩ := createSwap_success_inv s r b n hs
      rw [heq]
    · rw [createSwap_failure_state s r b n (by simpa using hs)]
  | accept a w t =>
    simp only [step]
    rcases acceptSwap_cases s a w t with ⟨-, hst⟩ | ⟨swap, item, hswap, hitem, hown, hpend⟩
    · left; rw [hst]
    · have hiid : item.id = swap.itemId := item_findById_id hitem
      by_cases hid : id = swap.itemId
      · right
        refine ⟨a, w, t, swap, item, rfl, ?_, hswap, hid.symm, by rw [hid]; exact hitem, ?_⟩
        · rw [acceptSwap_of_guards s a w t swap item hswap hitem hown hpend]
        · rw [acceptSwap_of_guards s a w t swap item hswap hitem hown hpend]
          have hfind : Item.findById s.items item.id = some item := by rw [hiid]; exact hitem
          simp only
          rw [item_findById_markUnavailable, if_pos (hid.trans hiid.symm), hfind]
          rfl
      · left
        rw [acceptSwap_of_guards s a w t swap item hswap hitem hown hpend]
        simp only
        rw [item_findById_markUnavailable, if_neg (fun h => hid (h.trans hiid))]
  | reject a w t =>
    left
    simp only [step]
    rcases rejectSwap_cases s a w t with ⟨-, hst⟩ | ⟨swap, item, hswap, hitem, hown, hpend⟩
    · rw [hst]
    · rw [rejectSwap_of_guards s a w t swap item hswap hitem hown hpend]

theorem run_unavailable_stays (ops : List Op) :
    ∀ (s : Store) (id : ItemId) (item : Item), Item.findById s.items id = some item →
      item.isAvailable = false → Item.findById (run s ops).2.items id = some item := by
  induction ops with
  | nil => intro s id item h _; exact h
  | cons op ops ih =>
    intro s id item h hav
    simp only [run]
    apply ih _ id item _ hav
    rcases step_item s op id with h1 | ⟨_, _, _, _, item', _, _, _, _, hbefore, hafter⟩
    · rw [h1]; exact h
    · rw [hafter]
      rw [h] at hbefore
      cases hbefore
      cases item
      simp only at hav
      subst hav
      rfl

/-- Claim C14 (availability only falls): (1) if one request changes what an item id resolves
to, the request is an accept that answered 200 for a swap on that item and the item is the
old one with `isAvailable` false; (2) an item that is unavailable is found unchanged after
any sequence of create, accept and reject requests; (3) marking an item unavailable twice
is the same as marking it once. -/
theorem availability_only_falls (s : Store) (op : Op) (ops : List Op) (id : ItemId) :
    (Item.findById (step s op).2.items id ≠ Item.findById s.items id →
      ∃ actor swapId now swap item, op = .accept actor swapId now ∧
        (step s op).1 = .swapAccepted ∧
        Swap.findById s.swaps swapId = some swap ∧ swap.itemId = id ∧
        Item.findById s.items id = some item ∧
        Item.findById (step s op).2.items id = some { item with isAvailable := false }) ∧
    (∀ item, Item.findById s.items id = some item → item.isAvailable = false →
      Item.findById (run s ops).2.items id = some item) ∧
    (Item.markUnavailable (Item.markUnavailable s.items id) id =
      Item.markUnavailable s.items id) := by
  refine ⟨?_, ?_, ?_⟩
  · intro hne
    rcases step_item s op id with h | h
    · exact absurd h hne
    · exact h
  · intro item h hav
    exact run_unavailable_stays ops s id item h hav
  · exact updateFirst_idem (fun i : Item => i.id == id) (fun i => { i with isAvailable := false })
      (fun _ => rfl) (fun _ => rfl) s.items

/-! ## Image verification: lemmas and claims -/

/-- A filter keeps something exactly when some element passes the test. -/
theorem filter_length_pos {α : Type} (p : α → Bool) (l : List α) :
    0 < (l.filter p).length ↔ ∃ x ∈ l, p x = true := by
  rw [List.length_pos_iff_exists_mem]
  constructor
  · rintro ⟨x, hx⟩
    exact ⟨x, (List.mem_filter.mp hx).1, (List.mem_filter.mp hx).2⟩
  · rintro ⟨x, hx, hp⟩
    exact ⟨x, List.mem_filter.mpr ⟨hx, hp⟩⟩

/-- A filter keeps nothing exactly when every element fails the test. -/
theorem filter_length_zero {α : Type} (p : α → Bool) (l : List α) :
    (l.filter p).length = 0 ↔ ∀ x ∈ l, p x = false := by
  rw [List.length_eq_zero, List.filter_eq_nil_iff]
  constructor
  · intro h x hx
    simpa using h x hx
  · intro h x hx
    simp [h x hx]

/-- Claim C15 (hard gate): when some stored result has a confidence below 50, the gate of
`handleSubmit` stops with the low-confidence message for the (positive) number of such
results, whatever the `matches` flags are; the confirmation dialog is not shown, its answer
plays no part, and `handleSubmit` never reaches the request that creates the listing. -/
theorem hard_gate_blocks (results : List (Nat × VerificationResult)) (confirm : Nat → Bool)
    (hlow : ∃ e ∈ results, ∃ c, e.2.confidence = some c ∧ c < 50) :
    verificationGate results confirm =
      .lowConfidence (results.filter (fun e => confidenceBelow e.2 50)).length ∧
    0 < (results.filter (fun e => confidenceBelow e.2 50)).length ∧
    (verificationGate results confirm).blocked = true ∧
    (verificationGate results confirm).requiresOverride = false ∧
    (∀ other : Nat → Bool, verificationGate results other = verificationGate results confirm) ∧
    (∀ st : AddItemState, st.verificationResults = results →
      (handleSubmit st confirm).blocked = true) := by
  obtain ⟨e, he, c, hc, hlt⟩ := hlow
  have hpos : 0 < (results.filter (fun e => confidenceBelow e.2 50)).length :=
    (filter_length_pos _ _).mpr ⟨e, he, by simp [confidenceBelow, hc, hlt]⟩
  have hne : 0 < results.length := List.length_pos_of_mem he
  have hgate : ∀ f : Nat → Bool, verificationGate results f =
      .lowConfidence (results.filter (fun e => confidenceBelow e.2 50)).length := by
    intro f
    simp [verificationGate, hne, hpos]
  refine ⟨hgate confirm, hpos, ?_, ?_, ?_, ?_⟩
  · rw [hgate]; rfl
  · rw [hgate]; rfl
  · intro other; rw [hgate, hgate]
  · intro st hst
    unfold handleSubmit
    by_cases hm : st.formData.requiredMissing = true
    · simp [hm, SubmitOutcome.blocked]
    · simp [hm, hst, hgate, SubmitOutcome.blocked]

/-- Claim C15 on the results `[{matches: true, confidence: 80}, {matches: true,
confidence: 40}]`. -/
theorem hard_gate_blocks_witness :
    verificationGate [(0, resultOf true 80), (1, resultOf true 40)] (fun _ => true) =
      .lowConfidence 1 ∧
    (verificationGate [(0, resultOf true 80), (1, resultOf true 40)]
      (fun _ => true)).blocked = true ∧
    (verificationGate [(0, resultOf true 80), (1, resultOf true 40)]
      (fun _ => true)).requiresOverride = false :=
  ⟨(hard_gate_blocks [(0, resultOf true 80), (1, resultOf true 40)] (fun _ => true)
      ⟨(1, resultOf true 40), by decide, 40, rfl, by decide⟩).1,
   (hard_gate_blocks [(0, resultOf true 80), (1, resultOf true 40)] (fun _ => true)
      ⟨(1, resultOf true 40), by decide, 40, rfl, by decide⟩).2.2.1,
   (hard_gate_blocks [(0, resultOf true 80), (1, resultOf true 40)] (fun _ => true)
      ⟨(1, resultOf true 40), by decide, 40, rfl, by decide⟩).2.2.2.1⟩


/-- Claim C16 (soft gate): for a non-empty collection of results that all have a confidence
of at least 50, the confirmation dialog is shown exactly when some result has
`matches = false`; in that case the gate lets the listing through exactly when the user
confirms; when every result matches the gate passes without a confirmation; with the
required fields filled in, `handleSubmit` is blocked exactly when the gate is. -/
theorem soft_gate_override (results : List (Nat × VerificationResult)) (confirm : Nat → Bool)
    (hne : results ≠ [])
    (hmin : ∀ e ∈ results, ∃ c, e.2.confidence = some c ∧ 50 ≤ c) :
    ((verificationGate results confirm).requiresOverride = true ↔
      ∃ e ∈ results, e.2.isMatch = false) ∧
    ((∃ e ∈ results, e.2.isMatch = false) →
      ((verificationGate results confirm).blocked = false ↔
        confirm (results.filter (fun e => !e.2.isMatch)).length = true)) ∧
    ((∀ e ∈ results, e.2.isMatch = true) → verificationGate results confirm = .passed none) ∧
    (∀ st : AddItemState, st.verificationResults = results →
      st.formData.requiredMissing = false →
      (handleSubmit st confirm).blocked = (verificationGate results confirm).blocked) := by
  have hlen : 0 < results.length := List.length_pos.mpr hne
  have hlow : (results.filter (fun e => confidenceBelow e.2 50)).length = 0 := by
    rw [filter_length_zero]
    intro e he
    obtain ⟨c, hc, hge⟩ := hmin e he
    simp [confidenceBelow, hc, hge]
  have hgate : verificationGate results confirm =
      if 0 < (results.filter (fun e => !e.2.isMatch)).length then
        if confirm (results.filter (fun e => !e.2.isMatch)).length then
          .passed (some (results.filter (fun e => !e.2.isMatch)).length)
        else .declined (results.filter (fun e => !e.2.isMatch)).length
      else .passed none := by
    simp only [verificationGate, gt_iff_lt, hlen, hlow, if_true, lt_irrefl, if_false]
  have hfail : 0 < (results.filter (fun e => !e.2.isMatch)).length ↔
      ∃ e ∈ results, e.2.isMatch = false := by
    rw [filter_length_pos]
    simp
  refine ⟨?_, ?_, ?_, ?_⟩
  · rw [hgate, ← hfail]
    by_cases h : 0 < (results.filter (fun e => !e.2.isMatch)).length
    · by_cases hc : confirm (results.filter (fun e => !e.2.isMatch)).length = true
      · simp [h, hc, GateOutcome.requiresOverride]
      · simp [h, hc, GateOutcome.requiresOverride]
    · simp [h, GateOutcome.requiresOverride]
  · intro hex
    have h := hfail.mpr hex
    rw [hgate]
    by_cases hc : confirm (results.filter (fun e => !e.2.isMatch)).length = true
    · simp [h, hc, GateOutcome.blocked]
    · simp [h, hc, GateOutcome.blocked]
  · intro hall
    have h : ¬ 0 < (results.filter (fun e => !e.2.isMatch)).length := by
      rw [hfail]
      rintro ⟨e, he, hf⟩
      rw [hall e he] at hf
      exact Bool.noConfusion hf
    rw [hgate, if_neg h]
  · intro st hst hform
    unfold handleSubmit
    rw [hst]
    cases hg : verificationGate results confirm <;>
      simp [hform, SubmitOutcome.blocked, GateOutcome.blocked]

/-- Claim C16 on the results `[{matches: false, confidence: 70}, {matches: true,
confidence: 90}]` with a user who confirms, and on `[{true, 75}, {true, 90}]`. -/
theorem soft_gate_override_witness :
    ((verificationGate [(0, resultOf false 70), (1, resultOf true 90)]
        (fun _ => true)).requiresOverride = true ∧
      (verificationGate [(0, resultOf false 70), (1, resultOf true 90)]
        (fun _ => true)).blocked = false) ∧
    verificationGate [(0, resultOf true 75), (1, resultOf true 90)] (fun _ => false) =
      .passed none :=
  ⟨⟨(soft_gate_override [(0, resultOf false 70), (1, resultOf true 90)] (fun _ => true)
        (by decide) (by decide)).1.mpr ⟨(0, resultOf false 70), by decide, rfl⟩,
     ((soft_gate_override [(0, resultOf false 70), (1, resultOf true 90)] (fun _ => true)
        (by decide) (by decide)).2.1 ⟨(0, resultOf false 70), by decide, rfl⟩).mpr rfl⟩,
   (soft_gate_override [(0, resultOf true 75), (1, resultOf true 90)] (fun _ => false)
      (by decide) (by decide)).2.2.1 (by decide)⟩


/-- Claim C17 as stated fails: with the form filled in and two images, a submission with no
verification result at all reaches the request that creates the listing; a failed
verification request for image 1 stores nothing, and the submission with a result for
image 0 only goes through as well. -/
theorem unverified_images_pass_gate :
    handleSubmit ⟨demoForm, ["front.png", "back.png"], []⟩ (fun _ => false) =
      .posted ["front.png", "back.png"] none ∧
    verifyImage ⟨demoForm, ["front.png", "back.png"], [(0, resultOf true 90)]⟩ 1 none =
      ⟨demoForm, ["front.png", "back.png"], [(0, resultOf true 90)]⟩ ∧
    handleSubmit ⟨demoForm, ["front.png", "back.png"], [(0, resultOf true 90)]⟩
      (fun _ => false) = .posted ["front.png", "back.png"] none := by
  decide

/-- Claim C17, amended: the gate reads the stored results only.  A verification request
that fails stores no result; with no stored result the submission goes through without any
check, whatever the images; a stored result with confidence 0 (what the verifier returns on
its own errors) is stopped by the hard gate; and whether the submission is blocked does not
depend on the list of images. -/
theorem gate_reads_stored_results_only (st : AddItemState) (confirm : Nat → Bool)
    (hform : st.formData.requiredMissing = false) :
    (∀ index, verifyImage st index none = st) ∧
    (st.verificationResults = [] → handleSubmit st confirm = .posted st.images none) ∧
    ((∃ e ∈ st.verificationResults, e.2.confidence = some 0) →
      ∃ n, 0 < n ∧ handleSubmit st confirm = .stopped (.lowConfidence n)) ∧
    (∀ images : List String,
      (handleSubmit { st with images := images } confirm).blocked =
        (handleSubmit st confirm).blocked) := by
  refine ⟨?_, ?_, ?_, ?_⟩
  · intro index
    unfold verifyImage
    split <;> rfl
  · intro hnil
    simp [handleSubmit, hform, hnil, verificationGate]
  · rintro ⟨e, he, hc⟩
    have hpos : 0 < (st.verificationResults.filter (fun e => confidenceBelow e.2 50)).length :=
      (filter_length_pos _ _).mpr ⟨e, he, by simp [confidenceBelow, hc]⟩
    have hne : 0 < st.verificationResults.length := List.length_pos_of_mem he
    refine ⟨_, hpos, ?_⟩
    simp [handleSubmit, hform, verificationGate, hne, hpos]
  · intro images
    unfold handleSubmit
    simp only [hform]
    cases verificationGate st.verificationResults confirm <;> simp [SubmitOutcome.blocked]

/-- Claim C17, amended, on a filled-in form with two images and no stored result. -/
theorem gate_reads_stored_results_only_witness :
    handleSubmit ⟨demoForm, ["front.png", "back.png"], []⟩ (fun _ => false) =
      .posted ["front.png", "back.png"] none :=
  (gate_reads_stored_results_only ⟨demoForm, ["front.png", "back.png"], []⟩ (fun _ => false)
    (by decide)).2.1 rfl


/-- The loop of `verify-item` in closed form. -/
theorem verifyItemLoop_spec (verify : String → VerificationResult) (files : List UploadedFile) :
    ∀ vars : VerifyItemVars, verifyItemLoop verify files vars =
      { verificationResults :=
          vars.verificationResults ++ files.map (fun f => (f.filename, verify f.path)),
        allImagesMatch := vars.allImagesMatch && files.all (fun f => (verify f.path).isMatch),
        averageConfidence := vars.averageConfidence +
          (files.map (fun f => (verify f.path).confidence.getD 0)).sum } := by
  induction files with
  | nil => intro vars; simp [verifyItemLoop]
  | cons f fs ih =>
    intro vars
    rw [verifyItemLoop, ih]
    cases hm : (verify f.path).isMatch <;> simp [hm, add_assoc]

/-- `Math.round x` is within a half of `x`, the upper half excluded. -/
theorem mathRound_nearest (x : ℚ) : (mathRound x : ℚ) - 1 / 2 ≤ x ∧ x < mathRound x + 1 / 2 := by
  unfold mathRound
  have h1 := Int.floor_le (x + 1 / 2)
  have h2 := Int.lt_floor_add_one (x + 1 / 2)
  constructor <;> linarith

/-- Claim C18 (average confidence): an upload without files is answered `No images uploaded`
before any division; for a non-empty upload with title, description and category,
`verify-item` answers 200 with one result per file in order, `allImagesMatch` the
conjunction of the `matches` flags, and `averageConfidence` the integer `k` with
`k - 1/2 ≤ mean < k + 1/2`, the mean of the confidences (a missing one counting as 0)
rounded to the nearest integer, a half going up. -/
theorem verify_item_average (verify : String → VerificationResult)
    (files : List UploadedFile) (title description category : String)
    (hfiles : files ≠ [])
    (htitle : title ≠ "") (hdescription : description ≠ "") (hcategory : category ≠ "") :
    verifyItem verify [] title description category = .noImagesUploaded ∧
    ∃ body, verifyItem verify files title description category = .verified body ∧
      body.verificationResults = files.map (fun f => (f.filename, verify f.path)) ∧
      body.allImagesMatch = files.all (fun f => (verify f.path).isMatch) ∧
      (body.averageConfidence : ℚ) - 1 / 2 ≤
        meanConfidence (files.map (fun f => verify f.path)) ∧
      meanConfidence (files.map (fun f => verify f.path)) <
        (body.averageConfidence : ℚ) + 1 / 2 := by
  refine ⟨by simp [verifyItem], ?_⟩
  have hlen : ¬ files.length = 0 := fun h => hfiles (List.length_eq_zero.mp h)
  have hmean : meanConfidence (files.map (fun f => verify f.path)) =
      (((files.map (fun f => (verify f.path).confidence.getD 0)).sum : Int) : ℚ) /
        files.length := by
    simp [meanConfidence, List.map_map, Function.comp_def]
  have hv : verifyItem verify files title description category =
      .verified
        { allImagesMatch := files.all (fun f => (verify f.path).isMatch),
          averageConfidence := mathRound
            ((((files.map (fun f => (verify f.path).confidence.getD 0)).sum : Int) : ℚ) /
              files.length),
          verificationResults := files.map (fun f => (f.filename, verify f.path)),
          recommendation :=
            if files.all (fun f => (verify f.path).isMatch) then
              "All images match the description"
            else "Some images do not match the description" } := by
    simp only [verifyItem, beq_iff_eq, hlen, if_false]
    simp only [Bool.or_eq_true, beq_iff_eq, htitle, hdescription, hcategory, or_self, if_false]
    simp [verifyItemLoop_spec]
  refine ⟨_, hv, rfl, rfl, ?_, ?_⟩
  · rw [hmean]; exact (mathRound_nearest _).1
  · rw [hmean]; exact (mathRound_nearest _).2

/-- `Math.round(82.5)` is 83. -/
theorem mathRound_165_half : mathRound ((165 : ℚ) / 2) = 83 := by
  unfold mathRound
  rw [Int.floor_eq_iff]
  norm_num

/-- Claim C18 on two files with confidences 75 and 90: the mean 82.5 is reported as 83. -/
theorem verify_item_average_witness :
    (∃ body, verifyItem demoVerify demoFiles "Jacket" "blue denim jacket" "outerwear" =
        .verified body ∧
      body.verificationResults = demoFiles.map (fun f => (f.filename, demoVerify f.path)) ∧
      body.allImagesMatch = demoFiles.all (fun f => (demoVerify f.path).isMatch) ∧
      (body.averageConfidence : ℚ) - 1 / 2 ≤
        meanConfidence (demoFiles.map (fun f => demoVerify f.path)) ∧
      meanConfidence (demoFiles.map (fun f => demoVerify f.path)) <
        (body.averageConfidence : ℚ) + 1 / 2) ∧
    verifyItem demoVerify demoFiles "Jacket" "blue denim jacket" "outerwear" =
      .verified
        { allImagesMatch := true, averageConfidence := 83,
          verificationResults :=
            [("verify-a.png", resultOf true 75), ("verify-b.png", resultOf true 90)],
          recommendation := "All images match the description" } :=
  ⟨(verify_item_average demoVerify demoFiles "Jacket" "blue denim jacket" "outerwear"
      (by decide) (by decide) (by decide) (by decide)).2,
   by
    have h : ((75 : Int) + 90 : ℚ) / (2 : ℕ) = 165 / 2 := by norm_num
    simp [verifyItem, demoFiles, verifyItemLoop, demoVerify, resultOf, h, mathRound_165_half]⟩

/-- Claim C19 as stated fails: the model answers with text that is not JSON (ASCII text,
on which `toLowerCase` is `asciiToLowerCase`); the Gemini service returns `success: true`,
`matches: true` and confidence 80, not a failed result. -/
theorem unparsable_answer_is_not_a_failed_result :
    geminiService.verifyClothingImage
        ⟨true, some "image bytes", some "yes, this looks like a match with high confidence",
          none, fun _ => none, asciiToLowerCase⟩ =
      .built
        { success := true, isMatch := true,
          detectedItem := "Response parsing failed - see reasoning",
          confidence := some 80, categoryMatch := false } := by
  decide

/-- Claim C19, amended: the Gemini service returns a failed result (`matches` false,
confidence 0) when the API key is missing, when the image cannot be read and when the model
call throws for the image prompt and for the text-only retry; an answer that is not JSON
with a boolean `matches` and a numeric `confidence` is instead scanned for keywords and
returned with `success: true` and confidence 80, 30 or 50.  The mock service returns a
failed result whenever its body throws (a description or category that is undefined, a
category naming an inherited property of the keyword table). -/
theorem verifier_failure_results (env : geminiService.Env)
    (toLowerCase : String → String)
    (userDescription category : Option String) (random : ℚ) :
    (env.apiKey = false →
      geminiService.verifyClothingImage env = .built geminiService.noApiKeyResult) ∧
    (env.apiKey = true → env.readFileSync = none →
      geminiService.verifyClothingImage env = .built geminiService.errorResult) ∧
    (env.apiKey = true → env.imageAnswer = none → env.textAnswer = none →
      geminiService.verifyClothingImage env = .built geminiService.errorResult) ∧
    (geminiService.noApiKeyResult.isMatch = false ∧
      geminiService.noApiKeyResult.confidence = some 0 ∧
      geminiService.errorResult.isMatch = false ∧
      geminiService.errorResult.confidence = some 0) ∧
    (∀ text, env.apiKey = true → env.readFileSync.isSome = true →
      geminiService.modelText env = some text →
      (env.jsonParse text = none ∨
        ∃ parsed, env.jsonParse text = some parsed ∧
          ((∀ b, geminiService.getKey parsed "matches" ≠ some (.bool b)) ∨
            (∀ q, geminiService.getKey parsed "confidence" ≠ some (.number q)))) →
      geminiService.verifyClothingImage env =
        .built (geminiService.parseErrorResult env.toLowerCase text) ∧
      (geminiService.parseErrorResult env.toLowerCase text).success = true ∧
      ((geminiService.parseErrorResult env.toLowerCase text).confidence = some 80 ∨
        (geminiService.parseErrorResult env.toLowerCase text).confidence = some 30 ∨
        (geminiService.parseErrorResult env.toLowerCase text).confidence = some 50)) ∧
    ((userDescription = none ∨ category = none ∨
        ∃ c, category = some c ∧ mockVerificationService.keywordsFor (toLowerCase c) = none) →
      mockVerificationService.verifyClothingImage toLowerCase userDescription category
        random = mockVerificationService.errorResult) ∧
    (mockVerificationService.errorResult.isMatch = false ∧
      mockVerificationService.errorResult.confidence = some 0) := by
  refine ⟨?_, ?_, ?_, ⟨rfl, rfl, rfl, rfl⟩, ?_, ?_, ⟨rfl, rfl⟩⟩
  · intro h
    simp [geminiService.verifyClothingImage, h]
  · intro h1 h2
    simp [geminiService.verifyClothingImage, h1, h2]
  · intro h1 h2 h3
    simp only [geminiService.verifyClothingImage, h1]
    cases env.readFileSync <;> simp [geminiService.modelText, h2, h3]
  · intro text h1 h2 h3 h4
    have hres : geminiService.verifyClothingImage env =
        .built (geminiService.parseErrorResult env.toLowerCase text) := by
      simp only [geminiService.verifyClothingImage, h1]
      cases hr : env.readFileSync with
      | none => simp [hr] at h2
      | some bytes =>
        simp only [Bool.not_true, Bool.false_eq_true, if_false, h3]
        rcases h4 with h4 | ⟨parsed, hp, h4⟩
        · simp [h4]
        · simp only [hp]
          rcases h4 with h4 | h4
          · split
            · rename_i b q hm hc
              exact absurd hm (h4 b)
            · rfl
          · split
            · rename_i b q hm hc
              exact absurd hc (h4 q)
            · rfl
    refine ⟨hres, rfl, ?_⟩
    simp only [geminiService.parseErrorResult]
    by_cases hh : jsIncludes (env.toLowerCase text) "high" = true
    · simp [hh]
    · by_cases hl : jsIncludes (env.toLowerCase text) "low" = true
      · simp [hh, hl]
      · simp [hh, hl]
  · intro h
    rcases h with h | h | ⟨c, hc, hk⟩
    · subst h; rfl
    · subst h
      cases userDescription <;> rfl
    · subst hc
      cases userDescription with
      | none => rfl
      | some d => simp [mockVerificationService.verifyClothingImage, hk]

/-! ## The swap ledger: dangling references -/

/-- Claim C20 (NotFound), evaluated on the code: request 100 of `danglingStore` refers to an
item that no longer exists; accept and reject both answer 500 `Server error` and leave the
store as it was, while a request id that does not exist is answered 404. -/
theorem accept_dangling_item_server_error :
    Swap.findById danglingStore.swaps 100 = some ⟨100, 2, 10, .swap, 0, .pending, none⟩ ∧
    Item.findById danglingStore.items 10 = none ∧
    acceptSwap danglingStore 1 100 7 = (.serverError, danglingStore) ∧
    rejectSwap danglingStore 1 100 7 = (.serverError, danglingStore) ∧
    Response.serverError.status = 500 ∧
    acceptSwap danglingStore 1 999 7 = (.swapNotFound, danglingStore) ∧
    Response.swapNotFound.status = 404 := by
  decide

/-! ## Image verification: removing an image, the mock verifier -/

/-- Claim C21 (removeImage keeps results with their images), evaluated on the code: three
verified images, the first is removed.  The two remaining images move to indices 0 and 1,
but the results stay under the keys 1 and 2: `back.png`, now at index 0, has no result,
`label.png`, now at index 1, is shown the result of `back.png`, and its own result sits
under key 2, where there is no image.  The gate right after the removal still stops on the
low confidence of `back.png`; once `label.png` is verified again at its index 1, that
result is overwritten, the result of `label.png` is stored twice, and the submission goes
through. -/
theorem removeImage_keeps_old_keys :
    (removeImage threeVerified 0).images = ["back.png", "label.png"] ∧
    (removeImage threeVerified 0).verificationResults =
      [(1, resultOf false 40), (2, resultOf true 95)] ∧
    resultAt threeVerified 1 = some (resultOf false 40) ∧
    resultAt threeVerified 2 = some (resultOf true 95) ∧
    resultAt (removeImage threeVerified 0) 0 = none ∧
    resultAt (removeImage threeVerified 0) 1 = some (resultOf false 40) ∧
    resultAt (removeImage threeVerified 0) 2 = some (resultOf true 95) ∧
    handleSubmit (removeImage threeVerified 0) (fun _ => false) =
      .stopped (.lowConfidence 1) ∧
    (verifyImage (removeImage threeVerified 0) 1 (some (resultOf true 95))).verificationResults =
      [(1, resultOf true 95), (2, resultOf true 95)] ∧
    handleSubmit (verifyImage (removeImage threeVerified 0) 1 (some (resultOf true 95)))
      (fun _ => false) = .posted ["back.png", "label.png"] none := by
  decide

/-- For a draw in `[0, 1)`, `Math.floor(random * n)` lies between 0 and `n - 1`. -/
theorem mathFloor_scaled (random : ℚ) (n : Int) (hn : 0 < n) (h0 : 0 ≤ random)
    (h1 : random < 1) : 0 ≤ mathFloor (random * n) ∧ mathFloor (random * n) ≤ n - 1 := by
  unfold mathFloor
  have hnq : (0 : ℚ) < n := by exact_mod_cast hn
  constructor
  · exact Int.floor_nonneg.mpr (mul_nonneg h0 hnq.le)
  · have : ⌊random * n⌋ < n := by
      rw [Int.floor_lt]
      calc random * n < 1 * n := by exact mul_lt_mul_of_pos_right h1 hnq
        _ = n := one_mul _
    omega

/-- Claim C22 (mock verifier): for every description and category for which the mock does
not throw and every draw `0 ≤ random < 1`, the result has `success: true`, `categoryMatch`
is the keyword test on `description.toLowerCase()`, `matches` equals `categoryMatch` (so it
is false when the category has no keywords, as for an unknown category), and the confidence
is an integer in `[0, 100]`: in `[70, 99]` on a keyword hit and in `[20, 59]` otherwise.
The statement holds for every function `toLowerCase`, so for the Unicode lower-casing of
the language. -/
theorem mock_confidence_ranges (toLowerCase : String → String)
    (userDescription category : String) (random : ℚ)
    (keywords : List String)
    (h0 : 0 ≤ random) (h1 : random < 1)
    (hk : mockVerificationService.keywordsFor (toLowerCase category) = some keywords) :
    (mockVerificationService.verifyClothingImage toLowerCase (some userDescription)
      (some category) random).success = true ∧
    (mockVerificationService.verifyClothingImage toLowerCase (some userDescription)
      (some category) random).categoryMatch =
        keywords.any (fun keyword => jsIncludes (toLowerCase userDescription) keyword) ∧
    (mockVerificationService.verifyClothingImage toLowerCase (some userDescription)
      (some category) random).isMatch =
      (mockVerificationService.verifyClothingImage toLowerCase (some userDescription)
        (some category) random).categoryMatch ∧
    (keywords = [] →
      (mockVerificationService.verifyClothingImage toLowerCase (some userDescription)
        (some category) random).isMatch = false) ∧
    ∃ confidence : Int,
      (mockVerificationService.verifyClothingImage toLowerCase (some userDescription)
        (some category) random).confidence = some confidence ∧
      0 ≤ confidence ∧ confidence ≤ 100 ∧
      ((mockVerificationService.verifyClothingImage toLowerCase (some userDescription)
          (some category) random).categoryMatch = true → 70 ≤ confidence ∧ confidence ≤ 99) ∧
      ((mockVerificationService.verifyClothingImage toLowerCase (some userDescription)
          (some category) random).categoryMatch = false → 20 ≤ confidence ∧ confidence ≤ 59) := by
  have h30 := mathFloor_scaled random 30 (by norm_num) h0 h1
  have h40 := mathFloor_scaled random 40 (by norm_num) h0 h1
  simp only [Int.cast_ofNat] at h30 h40
  cases hany : keywords.any (fun keyword => jsIncludes (toLowerCase userDescription) keyword)
  · have hres : mockVerificationService.verifyClothingImage toLowerCase (some userDescription)
        (some category) random =
        { success := true, isMatch := false,
          detectedItem := "Detected item that may not match your " ++ toLowerCase category ++
            " description",
          confidence := some (mathFloor (random * 40) + 20), categoryMatch := false } := by
      simp [mockVerificationService.verifyClothingImage, hk, hany]
    rw [hres]
    refine ⟨rfl, rfl, rfl, fun _ => rfl, _, rfl, ?_, ?_, ?_, ?_⟩
    · omega
    · omega
    · intro h; exact Bool.noConfusion h
    · intro _; omega
  · have hgt : mathFloor (random * 30) + 70 > 50 := by omega
    have hres : mockVerificationService.verifyClothingImage toLowerCase (some userDescription)
        (some category) random =
        { success := true, isMatch := true,
          detectedItem := "Detected " ++ toLowerCase category ++
            " item matching your description",
          confidence := some (mathFloor (random * 30) + 70), categoryMatch := true } := by
      simp [mockVerificationService.verifyClothingImage, hk, hany, hgt]
    rw [hres]
    refine ⟨rfl, rfl, rfl, ?_, _, rfl, ?_, ?_, ?_, ?_⟩
    · intro hnil; rw [hnil] at hany; simp at hany
    · omega
    · omega
    · intro _; omega
    · intro h; exact Bool.noConfusion h

/-- Claim C22 for the description `Blue denim JACKET` in the category `Outerwear` and for
the unknown category `hats`, with the draw 1/2; the strings are ASCII, where `toLowerCase`
is `asciiToLowerCase`. -/
theorem mock_confidence_ranges_witness :
    ((mockVerificationService.verifyClothingImage asciiToLowerCase
        (some "Blue denim JACKET") (some "Outerwear") (1 / 2)).isMatch =
      (mockVerificationService.verifyClothingImage asciiToLowerCase
        (some "Blue denim JACKET") (some "Outerwear") (1 / 2)).categoryMatch ∧
      (mockVerificationService.verifyClothingImage asciiToLowerCase
        (some "Blue denim JACKET") (some "Outerwear") (1 / 2)).categoryMatch = true) ∧
    (mockVerificationService.verifyClothingImage asciiToLowerCase
      (some "red hat") (some "hats") (1 / 2)).isMatch = false :=
  ⟨⟨(mock_confidence_ranges asciiToLowerCase "Blue denim JACKET" "Outerwear" (1 / 2)
        ["coat", "jacket", "blazer", "hoodie", "cardigan", "sweater"]
        (by norm_num) (by norm_num) (by decide)).2.2.1,
     (mock_confidence_ranges asciiToLowerCase "Blue denim JACKET" "Outerwear" (1 / 2)
        ["coat", "jacket", "blazer", "hoodie", "cardigan", "sweater"]
        (by norm_num) (by norm_num) (by decide)).2.1.trans (by decide)⟩,
   (mock_confidence_ranges asciiToLowerCase "red hat" "hats" (1 / 2) []
      (by norm_num) (by norm_num) (by decide)).2.2.2.1 rfl⟩

end ReWear
